import Mathlib

/-!
Verification of the multi-code-classifier resolution pipeline.

Shallow embedding of the core of the repository:
  * the reference store and its fuzzy-index cache (src/services/dbService.ts),
  * the classifier request construction (src/unnamed/part_003, the
    provider-based `codeSingleOccupation` that matches the call sites and
    `AISettings` shape used by src/App.tsx),
  * the batch orchestrator `processRows` and its operator handlers
    (src/App.tsx).

Stateful TypeScript code is embedded as explicit state passing; the
external classifier is an oracle parameter `classify`; the third-party
fuzzy search library (fuse.js) is modelled from the spec's description of
its scoring (0 = identical after case/whitespace normalization, larger
with dissimilarity, substring-anywhere matching, minimum pattern length
of 2 normalized characters, results sorted ascending by score and cut at
the 0.4 threshold configured in dbService.ts).
-/

namespace MCC

/-! ## Definitions -/

/-- The classification modules, from `ModuleType` in types.ts. -/
inductive ModuleType where
  | ISCO08
  | ISIC4
  | COICOP
  | DUAL
deriving DecidableEq, Repr

/-- The string value of each enum member (types.ts). Used in log messages. -/
def ModuleType.str : ModuleType → String
  | .ISCO08 => "ISCO-08"
  | .ISIC4 => "ISIC Rev. 4"
  | .COICOP => "COICOP 2018"
  | .DUAL => "Dual Coding (ISCO + ISIC)"

/-- Provenance of a reference entry (types.ts `source: 'upload' | 'learned'`). -/
inductive EntrySource where
  | upload
  | learned
deriving DecidableEq, Repr

/-- Model of `ReferenceEntry` from types.ts. -/
structure ReferenceEntry where
  id : String
  module : ModuleType
  term : String
  code : String
  label : String
  description : Option String := none
  source : EntrySource := .upload
  addedAt : Nat := 0
deriving DecidableEq, Repr

/-- Model of `CodedResult` from types.ts; `confidence` is a plain string there. -/
structure CodedResult where
  code : String
  label : String
  confidence : String
  reasoning : Option String := none
deriving DecidableEq, Repr

/-- Per-row lifecycle state (`codingStatus` in `ProcessedRow`). -/
inductive RowStatus where
  | pending
  | coded
  | error
deriving DecidableEq, Repr

/-- Model of `ProcessedRow` from types.ts. The dynamic record columns are
represented by the three mapped text fields the core reads
(`row[mapping.jobTitleColumn]` etc. are resolved here to `primary`,
`secondary`, `tertiary`, exactly the fields `processRows` extracts). -/
structure Row where
  id : String := ""
  primary : String := ""
  secondary : String := ""
  tertiary : Option String := none
  codingStatus : RowStatus := .pending
  result : Option CodedResult := none
  errorMessage : Option String := none
  manuallyEdited : Bool := false
deriving DecidableEq, Repr

instance : Inhabited Row := ⟨{}⟩

/-- Run status (`CodingStatus` enum; App.tsx additionally uses a
`Paused` member at its pause boundary). -/
inductive CodingStatus where
  | Idle
  | Mapping
  | Processing
  | Paused
  | Review
deriving DecidableEq, Repr

/-- Leading- and trailing-whitespace trim on a character list (the
behaviour of JavaScript `String.prototype.trim`). -/
def trimChars (l : List Char) : List Char :=
  ((l.dropWhile Char.isWhitespace).reverse.dropWhile
    Char.isWhitespace).reverse

/-- JavaScript `term.trim()`. -/
def jsTrim (s : String) : String := ⟨trimChars s.data⟩

/-- Case/whitespace normalization used by the similarity model. -/
def normalize (s : String) : String := ⟨trimChars (s.data.map Char.toLower)⟩

/-- A non-negative similarity score as an unreduced fraction
`num / den` (`den` positive in every use); comparisons are by
cross-multiplication.  fuse.js reports scores as floating-point
numbers; the scores this model produces are exact rationals. -/
structure Score where
  num : Nat
  den : Nat
deriving DecidableEq, Repr

/-- Strict order `a < b` on scores, by cross-multiplication. -/
def Score.lt (a b : Score) : Bool := a.num * b.den < b.num * a.den

/-- Order `a ≤ b` on scores, by cross-multiplication. -/
def Score.le (a b : Score) : Bool := a.num * b.den ≤ b.num * a.den

/-- Modelled from the spec: fuzzy dissimilarity score. 0 iff the
normalized strings are identical; a proper normalized substring match
scores by the unmatched fraction; anything else scores 1. -/
def fuseScore (pattern target : String) : Score :=
  let p := normalize pattern
  let t := normalize target
  if p.length < 2 then ⟨1, 1⟩
  else if p = t then ⟨0, 1⟩
  else if p.data <:+: t.data then ⟨t.length - p.length, max t.length 1⟩
  else ⟨1, 1⟩

/-- Insert one scored result keeping the list sorted ascending by score
(stable: later entries go after equal scores). -/
def insertScored (x : ReferenceEntry × Score) :
    List (ReferenceEntry × Score) → List (ReferenceEntry × Score)
  | [] => [x]
  | y :: rest =>
      if Score.lt x.2 y.2 then x :: y :: rest else y :: insertScored x rest

/-- Sort scored results ascending by score (stable insertion sort). -/
def sortScored (l : List (ReferenceEntry × Score)) : List (ReferenceEntry × Score) :=
  l.foldr insertScored []

/-- Model of `fuse.search(term)` on an index built over `entries` with
`keys: ['term']`, `threshold: 0.4`, `includeScore: true`. -/
def fuseSearch (entries : List ReferenceEntry) (term : String) :
    List (ReferenceEntry × Score) :=
  sortScored (((entries.map fun e => (e, fuseScore term e.term)).filter
    fun x => Score.le x.2 ⟨2, 5⟩))

/-- The dbService module state: the `reference_data` object store plus
the in-memory `fuseCache`. -/
structure DBState where
  store : List ReferenceEntry := []
  cache : List (ModuleType × List ReferenceEntry) := []
deriving DecidableEq, Repr

/-- Lookup `fuseCache[module]`. -/
def cacheLookup (st : DBState) (m : ModuleType) : Option (List ReferenceEntry) :=
  (st.cache.find? fun x => x.1 == m).map (·.2)

/-- Assignment `fuseCache[module] = fuse`. -/
def cacheSet (st : DBState) (m : ModuleType) (entries : List ReferenceEntry) :
    DBState :=
  { st with cache := (m, entries) :: st.cache.filter fun x => x.1 ≠ m }

/-- Model of `invalidateCache(module)` / `invalidateCache()` from dbService.ts. -/
def invalidateCache (st : DBState) (m : Option ModuleType) : DBState :=
  match m with
  | some m => { st with cache := st.cache.filter fun x => x.1 ≠ m }
  | none => { st with cache := [] }

/-- Model of `getEntriesByModule`: full scan of one module's entries (the
`module` index `getAll`). -/
def getEntriesByModule (st : DBState) (m : ModuleType) : List ReferenceEntry :=
  st.store.filter fun e => e.module == m

/-- One `store.put(entry)` upsert by the `id` keyPath. -/
def putEntry (store : List ReferenceEntry) (e : ReferenceEntry) :
    List ReferenceEntry :=
  (store.filter fun x => x.id ≠ e.id) ++ [e]

/-- Model of `addReferenceEntries`: puts every entry, then on transaction
completion invalidates the cache for every distinct module of the
written entries. -/
def addReferenceEntries (st : DBState) (entries : List ReferenceEntry) :
    DBState :=
  let store' := entries.foldl putEntry st.store
  (entries.map (·.module)).foldl (fun acc m => invalidateCache acc (some m))
    { st with store := store' }

/-- Model of `clearReferenceData(module?)`: deletes one module's entries (cursor
walk) or the whole store, then invalidates accordingly. -/
def clearReferenceData (st : DBState) (m : Option ModuleType) : DBState :=
  match m with
  | some m =>
      invalidateCache { st with store := st.store.filter fun e => e.module ≠ m }
        (some m)
  | none => invalidateCache { st with store := [] } none

/-- Model of `getFuseInstance(module)`: memoized per module; on a cache miss the
index is rebuilt from the store; an empty module yields `null` and is
not cached.  `readExc` injects a storage exception at the
`getEntriesByModule` read (the `await` that can reject inside the
callers' try blocks). -/
def getFuseInstanceE (readExc : Option String) (st : DBState) (m : ModuleType) :
    Except String (Option (List ReferenceEntry) × DBState) :=
  match cacheLookup st m with
  | some entries => .ok (some entries, st)
  | none =>
      match readExc with
      | some e => .error e
      | none =>
          let entries := getEntriesByModule st m
          if entries.isEmpty then .ok (none, st)
          else .ok (some entries, cacheSet st m entries)

/-- The `console.error` line of `findReferenceMatch`'s catch block:
the module and a 50-character truncation of the term. -/
def logMsgMatch (m : ModuleType) (term : String) : String :=
  "[DB Service Error] findReferenceMatch failed for module: " ++ m.str
    ++ ", term: \"" ++ term.take 50 ++ "...\""

/-- The `console.error` line of `findSimilarReferences`'s catch block. -/
def logMsgSimilar (m : ModuleType) (term : String) : String :=
  "[DB Service Error] findSimilarReferences failed for module: " ++ m.str
    ++ ", term: \"" ++ term.take 50 ++ "...\""

/-- Model of `findReferenceMatch(term, module)` with injectable exceptions:
`readExc` fails the index build, `searchExc` fails `fuse.search`.  The
try/catch is the outer match; the result carries the possibly-updated
cache state and the emitted error log.  Note the guard
`results[0].score && results[0].score < 0.1`: a JavaScript truthiness
test, false when the score is exactly 0. -/
def findReferenceMatchE (readExc searchExc : Option String) (st : DBState)
    (term : String) (m : ModuleType) :
    Option ReferenceEntry × DBState × List String :=
  match getFuseInstanceE readExc st m with
  | .error _ => (none, st, [logMsgMatch m term])
  | .ok (none, st') => (none, st', [])
  | .ok (some entries, st') =>
      if jsTrim term = "" then (none, st', [])
      else
        match searchExc with
        | some _ => (none, st', [logMsgMatch m term])
        | none =>
            match fuseSearch entries term with
            | [] => (none, st', [])
            | (item, score) :: _ =>
                if score.num ≠ 0 ∧ Score.lt score ⟨1, 10⟩ then
                  (some item, st', [])
                else (none, st', [])

/-- Model of `findSimilarReferences(term, module)` with injectable exceptions:
top 3 search hits for retrieval-augmented prompting. -/
def findSimilarReferencesE (readExc searchExc : Option String) (st : DBState)
    (term : String) (m : ModuleType) :
    List ReferenceEntry × DBState × List String :=
  match getFuseInstanceE readExc st m with
  | .error _ => ([], st, [logMsgSimilar m term])
  | .ok (none, st') => ([], st', [])
  | .ok (some entries, st') =>
      if jsTrim term = "" then ([], st', [])
      else
        match searchExc with
        | some _ => ([], st', [logMsgSimilar m term])
        | none => ((fuseSearch entries term).take 3).map (·.1) |> (·, st', [])

/-- Query `findReferenceMatch` on the healthy path (no injected exception). -/
def findReferenceMatch (st : DBState) (term : String) (m : ModuleType) :
    Option ReferenceEntry × DBState :=
  let r := findReferenceMatchE none none st term m
  (r.1, r.2.1)

/-- Query `findSimilarReferences` on the healthy path. -/
def findSimilarReferences (st : DBState) (term : String) (m : ModuleType) :
    List ReferenceEntry × DBState :=
  let r := findSimilarReferencesE none none st term m
  (r.1, r.2.1)

/-- The match decision as a pure function of the module's entry list. -/
def refMatchPure (entries : List ReferenceEntry) (term : String) :
    Option ReferenceEntry :=
  if entries.isEmpty then none
  else if jsTrim term = "" then none
  else
    match fuseSearch entries term with
    | [] => none
    | (item, score) :: _ =>
        if score.num ≠ 0 ∧ Score.lt score ⟨1, 10⟩ then some item else none

/-- The similar-entry retrieval as a pure function of the module's
entry list. -/
def simPure (entries : List ReferenceEntry) (term : String) :
    List ReferenceEntry :=
  if entries.isEmpty then []
  else if jsTrim term = "" then []
  else ((fuseSearch entries term).take 3).map (·.1)

/-- A cache state is consistent when every memoized index was built
from the current store contents. -/
def CacheConsistent (st : DBState) : Prop :=
  ∀ m entries, cacheLookup st m = some entries →
    entries = getEntriesByModule st m

/-- A cache state is well-formed when every memoized index for module
`m` holds only module-`m` entries. -/
def CacheWF (st : DBState) : Prop :=
  ∀ m entries, cacheLookup st m = some entries →
    ∀ e ∈ entries, e.module = m

/-- The cache state after one query touched module `m`. -/
def dbAfter (st : DBState) (m : ModuleType) : DBState :=
  match cacheLookup st m with
  | some _ => st
  | none =>
      if (getEntriesByModule st m).isEmpty then st
      else cacheSet st m (getEntriesByModule st m)

/-- The request sent to the external classifier: the arguments of
`codeSingleOccupation(primaryText, secondaryText, module, settings,
tertiaryText, examples)` (the `settings` value selects the provider and
does not change the prompt content). -/
structure ClassifierRequest where
  primary : String
  secondary : String
  module : ModuleType
  tertiary : Option String := none
  examples : List ReferenceEntry := []
deriving DecidableEq, Repr

/-- JavaScript `a || b` on an optional string (empty string is falsy). -/
def jsOr (a : Option String) (b : String) : String :=
  match a with
  | some x => if x = "" then b else x
  | none => b

/-- One line of the few-shot block:
`- Input: "term" was coded as Code: code ("label")`. -/
def exampleLine (ex : ReferenceEntry) : String :=
  "- Input: \"" ++ ex.term ++ "\" was coded as Code: " ++ ex.code
    ++ " (\"" ++ ex.label ++ "\")\n"

/-- The `contextInfo` few-shot block built from the retrieved examples. -/
def contextInfo (examples : List ReferenceEntry) : String :=
  if examples.isEmpty then ""
  else
    (examples.foldl (fun acc ex => acc ++ exampleLine ex)
      "\n\nUse these similar past decisions from the dictionary as reference logic:\n")
      ++ "\nApply similar logic to the new item below.\n"

/-- The per-module system prompt of `codeSingleOccupation`. -/
def systemPromptFor (m : ModuleType) : String :=
  match m with
  | .ISCO08 => "You are an expert statistician specializing in ISCO-08."
  | .ISIC4 => "You are an expert statistician specializing in ISIC Rev. 4."
  | .COICOP => "You are an expert statistician specializing in COICOP 2018."
  | .DUAL => "You are an expert statistician."

/-- The user prompt `codeSingleOccupation` sends for a request: the
few-shot context followed by the per-module classification template. -/
def userPrompt (req : ClassifierRequest) : String :=
  let ctx := contextInfo req.examples
  let tail := "\". Return JSON with fields: code (4-digit string), label (string), confidence (High/Medium/Low), reasoning (string)."
  match req.module with
  | .ISCO08 =>
      ctx ++ "Classify: Job Title: \"" ++ req.primary ++ "\", Description: \""
        ++ req.secondary ++ tail
  | .ISIC4 =>
      ctx ++ "Classify: Activity: \"" ++ req.primary ++ "\", Details: \""
        ++ req.secondary ++ tail
  | .COICOP =>
      ctx ++ "Classify: Item: \"" ++ req.primary ++ "\", Context: \""
        ++ req.secondary ++ tail
  | .DUAL =>
      ctx ++ "Perform DUAL CODING for: Job Title: \"" ++ req.primary
        ++ "\", Industry: \"" ++ jsOr req.tertiary req.secondary ++ "\".\n"
        ++ "      1. Determine ISCO-08 code.\n"
        ++ "      2. Determine ISIC Rev. 4 code.\n"
        ++ "      Return JSON:\n"
        ++ "      - code: \"ISCO: <isco> / ISIC: <isic>\"\n"
        ++ "      - label: \"<isco_label> / <isic_label>\"\n"
        ++ "      - confidence: \"High\" (if both high), else \"Medium/Low\"\n"
        ++ "      - reasoning: \"ISCO: <reason>. ISIC: <reason>.\""

/-- Containment: `needle` occurs contiguously inside `hay`. -/
def containsStr (hay needle : String) : Prop :=
  ∃ l r, hay.data = l ++ needle.data ++ r

/-- The transient `{...row, codingStatus: 'pending', errorMessage:
undefined}` write performed before the resolution attempt. -/
def markPending (r : Row) : Row :=
  { r with codingStatus := .pending, errorMessage := none }

/-- The `CodedResult` built from a dictionary hit. -/
def refToResult (e : ReferenceEntry) : CodedResult :=
  { code := e.code
    label := e.label
    confidence := "Reference"
    reasoning := some "Matched exactly with local dictionary entry." }

/-- The classifier request built for a row: the arguments of the
`codeSingleOccupation` call in `processRows`. -/
def mkReq (m : ModuleType) (r : Row) (examples : List ReferenceEntry) :
    ClassifierRequest :=
  { primary := r.primary
    secondary := r.secondary
    module := m
    tertiary := r.tertiary
    examples := examples }

/-- Outcome of one wave task. -/
structure RowStep where
  pend : Row
  fin : Row
  db : DBState
  requests : List ClassifierRequest
deriving DecidableEq, Repr

/-- One wave task of `processRows`: mark pending, query the dictionary,
fall back to the classifier with the retrieved examples, catch a
classifier error into an `error` row. -/
def resolveRow (classify : ClassifierRequest → Except String CodedResult)
    (m : ModuleType) (db : DBState) (r : Row) : RowStep :=
  let pend := markPending r
  match findReferenceMatch db r.primary m with
  | (some e, db') =>
      { pend := pend
        fin := { r with
          codingStatus := .coded
          result := some (refToResult e)
          errorMessage := none }
        db := db'
        requests := [] }
  | (none, db') =>
      let sim := findSimilarReferences db' r.primary m
      let req := mkReq m r sim.1
      match classify req with
      | .ok res =>
          { pend := pend
            fin := { r with
              codingStatus := .coded
              result := some res
              errorMessage := none }
            db := sim.2
            requests := [req] }
      | .error msg =>
          { pend := pend
            fin := { r with
              codingStatus := .error
              errorMessage := some msg }
            db := sim.2
            requests := [req] }

/-- Pure outcome of one wave task over a module's store contents. -/
def resolveP (classify : ClassifierRequest → Except String CodedResult)
    (m : ModuleType) (entries : List ReferenceEntry) (r : Row) : Row :=
  match refMatchPure entries r.primary with
  | some e =>
      { r with
        codingStatus := .coded
        result := some (refToResult e)
        errorMessage := none }
  | none =>
      match classify (mkReq m r (simPure entries r.primary)) with
      | .ok res =>
          { r with
            codingStatus := .coded
            result := some res
            errorMessage := none }
      | .error msg =>
          { r with codingStatus := .error, errorMessage := some msg }

/-- Pure request log of one wave task: the classifier is called exactly
when the dictionary does not hit. -/
def requestP (m : ModuleType) (entries : List ReferenceEntry) (r : Row) :
    List ClassifierRequest :=
  match refMatchPure entries r.primary with
  | some _ => []
  | none => [mkReq m r (simPure entries r.primary)]

/-- The orchestrator state visible to the model: the local
`currentData`, the published `processedData`, the db service state, the
classifier request log, the log of resolved indices and the run
status. -/
structure RunState where
  data : List Row
  published : List Row
  db : DBState
  requests : List ClassifierRequest
  resolvedLog : List Nat
  status : CodingStatus
deriving DecidableEq, Repr

/-- One wave: resolve each of its indices in `currentData`. -/
def processWave (classify : ClassifierRequest → Except String CodedResult)
    (m : ModuleType) : RunState → List Nat → RunState
  | s, [] => s
  | s, idx :: rest =>
      match s.data[idx]? with
      | none => processWave classify m s rest
      | some row =>
          let step := resolveRow classify m s.db row
          processWave classify m
            { s with
              data := s.data.set idx step.fin
              db := step.db
              requests := s.requests ++ step.requests
              resolvedLog := s.resolvedLog ++ [idx] } rest

/-- Wave partitioning `indicesToProcess.slice(i, i + batchSize)` with
`batchSize = 3`. -/
def chunks3 : List Nat → List (List Nat)
  | [] => []
  | a :: b :: c :: rest => [a, b, c] :: chunks3 rest
  | l => [l]

/-- Whether the stop flag is observed set at wave boundary `w`. -/
def stopsAt (pauseAt : Option Nat) (w : Nat) : Bool :=
  match pauseAt with
  | some p => p ≤ w
  | none => false

/-- The wave loop of `processRows`: check the stop flag, run the wave,
flush the published state every second wave or at the end, repeat;
on a set flag exit `Paused`, after the last wave exit `Review`. -/
def runWaves (classify : ClassifierRequest → Except String CodedResult)
    (m : ModuleType) (total : Nat) (pauseAt : Option Nat) :
    Nat → List (List Nat) → RunState → RunState
  | _, [], s => { s with status := .Review }
  | w, batch :: rest, s =>
      if stopsAt pauseAt w then { s with status := .Paused }
      else
        let s' := processWave classify m s batch
        let s'' := if 3 * w % 6 = 0 ∨ 3 * w + 3 ≥ total then
            { s' with published := s'.data } else s'
        runWaves classify m total pauseAt (w + 1) rest s''

/-- Model of `processRows(indicesToProcess)`: a no-op on an empty selection,
otherwise the wave loop from a fresh copy of the published data. -/
def processRows (classify : ClassifierRequest → Except String CodedResult)
    (m : ModuleType) (pauseAt : Option Nat) (indices : List Nat)
    (published : List Row) (db : DBState) (status0 : CodingStatus) :
    RunState :=
  if indices.isEmpty then
    { data := published
      published := published
      db := db
      requests := []
      resolvedLog := []
      status := status0 }
  else
    runWaves classify m indices.length pauseAt 0 (chunks3 indices)
      { data := published
        published := published
        db := db
        requests := []
        resolvedLog := []
        status := .Processing }

/-- The pending-row selection of `handleAutoCode`. -/
def pendingIndices (data : List Row) : List Nat :=
  (List.range data.length).filter
    fun i => (data.getD i default).codingStatus == RowStatus.pending

/-- The error-row selection of `handleRetryErrors`. -/
def errorIndices (data : List Row) : List Nat :=
  (List.range data.length).filter
    fun i => (data.getD i default).codingStatus == RowStatus.error

/-- Model of `handleAutoCode`: guarded against an active run; selects all
pending rows and runs them. -/
def handleAutoCode (classify : ClassifierRequest → Except String CodedResult)
    (m : ModuleType) (pauseAt : Option Nat) (published : List Row)
    (db : DBState) (status0 : CodingStatus) : RunState :=
  if status0 = .Processing then
    { data := published
      published := published
      db := db
      requests := []
      resolvedLog := []
      status := status0 }
  else processRows classify m pauseAt (pendingIndices published) published db
    status0

/-- Model of `handleRetryErrors`: guarded against an active run; selects all
error rows and re-runs them through the same pipeline. -/
def handleRetryErrors (classify : ClassifierRequest → Except String CodedResult)
    (m : ModuleType) (pauseAt : Option Nat) (published : List Row)
    (db : DBState) (status0 : CodingStatus) : RunState :=
  if status0 = .Processing then
    { data := published
      published := published
      db := db
      requests := []
      resolvedLog := []
      status := status0 }
  else processRows classify m pauseAt (errorIndices published) published db
    status0

/-- The `onSave` handler of the manual-edit dialog: whatever is in the
form, confidence is forced to `'Manual'`. -/
def modalSave (formState : CodedResult) : CodedResult :=
  { formState with confidence := "Manual" }

/-- Model of `handleManualSave(result)`: overwrite the edited row as coded,
manually edited, with the error cleared. -/
def handleManualSave (data : List Row) (editingRowIndex : Option Nat)
    (result : CodedResult) : List Row :=
  match editingRowIndex with
  | none => data
  | some i =>
      data.set i
        { data.getD i default with
          codingStatus := .coded
          result := some result
          errorMessage := none
          manuallyEdited := true }

/-- Pure specification of a run's data transformation: resolve the
listed indices in order over fixed store contents `E`. -/
def resolveSteps (classify : ClassifierRequest → Except String CodedResult)
    (m : ModuleType) (E : List ReferenceEntry) :
    List Row → List Nat → List Row
  | d, [] => d
  | d, i :: rest =>
      match d[i]? with
      | none => resolveSteps classify m E d rest
      | some r =>
          resolveSteps classify m E (d.set i (resolveP classify m E r)) rest

/-- The row and form used by the C10 witness. -/
def c10row : Row := { id := "1", codingStatus := .error, errorMessage := some "x" }

/-- The form content typed in the C10 witness scenario. -/
def c10form : CodedResult := { code := "77", label := "L", confidence := "High" }

/-- The pre-populated state used by the C4 witness: one stored entry
and a warm cached index for its module. -/
def c4entry : ReferenceEntry :=
  { id := "e1", module := .ISCO08, term := "software engineer",
    code := "2512", label := "Software developers" }

/-- A second entry written by the C4 witness's put. -/
def c4entry2 : ReferenceEntry :=
  { id := "e2", module := .ISCO08, term := "truck driver", code := "8332",
    label := "Heavy truck drivers" }

/-- A warm DB state whose cache the C4 witness watches being dropped. -/
def c4state : DBState :=
  { store := [c4entry], cache := [(.ISCO08, [c4entry])] }

/-- A stand-in external classifier that always answers. -/
def aiOracle : ClassifierRequest → Except String CodedResult :=
  fun _ => .ok { code := "9999", label := "AI label", confidence := "High" }

/-- The dictionary entry of the C1 failing input. -/
def seEntry : ReferenceEntry :=
  { id := "r1", module := .ISCO08, term := "software engineer",
    code := "2512", label := "Software developers" }

/-- The store of the C1 failing input, populated through the put API. -/
def c1db : DBState := addReferenceEntries {} [seEntry]

/-- The batch row of the C1 failing input: primary text equal to the
stored term up to case. -/
def c1row : Row := { id := "1", primary := "Software Engineer" }

/-- The whitespace-only row of the C2 counterexample. -/
def blankRow : Row := { id := "1", primary := "   " }

/-- The near-miss dictionary entry of the C3 witness: similar to the
query but not an exact match. -/
def c3entry : ReferenceEntry :=
  { id := "e3", module := .ISCO08, term := "senior software engineer",
    code := "2512", label := "Software developers" }

/-- The C3 witness store (cold cache). -/
def c3db : DBState := { store := [c3entry] }

/-- The C3 witness row. -/
def c3row : Row := { id := "2", primary := "software engineer" }

/-- Whether a classifier answer is a success (used to phrase
row-success hypotheses decidably). -/
def classifierOk (x : Except String CodedResult) : Bool :=
  match x with
  | .ok _ => true
  | .error _ => false

/-- A row resolves successfully: dictionary hit, or classifier
success. -/
def rowResolves (classify : ClassifierRequest → Except String CodedResult)
    (m : ModuleType) (E : List ReferenceEntry) (r : Row) : Prop :=
  (refMatchPure E r.primary).isSome = true ∨
    classifierOk (classify (mkReq m r (simPure E r.primary))) = true

instance (classify : ClassifierRequest → Except String CodedResult)
    (m : ModuleType) (E : List ReferenceEntry) (r : Row) :
    Decidable (rowResolves classify m E r) :=
  inferInstanceAs (Decidable (_ ∨ _))

/-- The four-row batch of the C5 witness. -/
def c5rows : List Row :=
  [{ id := "a", primary := "alpha" }, { id := "b", primary := "beta" },
    { id := "c", primary := "gamma" }, { id := "d", primary := "delta" }]

/-- A classifier that fails exactly on the second row's text. -/
def c5oracle : ClassifierRequest → Except String CodedResult :=
  fun req =>
    if req.primary = "beta" then .error "AI down"
    else .ok { code := "1111", label := "L", confidence := "High" }

/-- The two-row state of the C7 witness: row 0 errored, row 1 coded. -/
def c7rows : List Row :=
  [{ id := "a", primary := "alpha", codingStatus := .error,
      errorMessage := some "old failure" },
    { id := "b", primary := "beta", codingStatus := .coded,
      result := some { code := "1", label := "L", confidence := "High" } }]

/-- Ten identical pending rows for the C6 scenarios. -/
def c6rows : List Row := List.replicate 10 { id := "r", primary := "job" }

/-- A classifier that always succeeds, for the C6 scenarios. -/
def c6oracle : ClassifierRequest → Except String CodedResult :=
  fun _ => .ok { code := "1", label := "L", confidence := "High" }

/-- A 10-row run whose stop flag is observed at the boundary before
wave 2 (`i = 6`). -/
def c6run1 : RunState :=
  processRows c6oracle .ISCO08 (some 2) (List.range 10) c6rows {} .Review

/-- Resuming after the pause (no further pause request). -/
def c6run2 : RunState :=
  handleAutoCode c6oracle .ISCO08 none c6run1.published c6run1.db
    c6run1.status

/-- A run over all rows with the stop flag observed at the boundary
after the first wave (the spec's "pause after wave 1" scenario). -/
def pauseAfterFirstWave
    (classify : ClassifierRequest → Except String CodedResult)
    (m : ModuleType) (rows : List Row) (st : DBState)
    (status0 : CodingStatus) : RunState :=
  processRows classify m (some 1) (List.range rows.length) rows st status0

/-- Resuming a paused run: `handleAutoCode` over its published state,
with no further pause request. -/
def resumeAfterPause
    (classify : ClassifierRequest → Except String CodedResult)
    (m : ModuleType) (s : RunState) : RunState :=
  handleAutoCode classify m none s.published s.db s.status

/-! ## Theorems -/

theorem mem_insertScored {x y : ReferenceEntry × Score}
    {l : List (ReferenceEntry × Score)} :
    y ∈ insertScored x l ↔ y = x ∨ y ∈ l := by
  induction l with
  | nil => simp [insertScored]
  | cons z rest ih =>
      by_cases h : Score.lt x.2 z.2
      · simp [insertScored, h]
      · simp [insertScored, h, ih]
        tauto

theorem mem_sortScored {y : ReferenceEntry × Score}
    {l : List (ReferenceEntry × Score)} :
    y ∈ sortScored l ↔ y ∈ l := by
  induction l with
  | nil => simp [sortScored]
  | cons z rest ih =>
      simp only [sortScored, List.foldr_cons] at *
      rw [mem_insertScored, ih]
      simp

theorem mem_fuseSearch {y : ReferenceEntry × Score} {entries : List ReferenceEntry}
    {term : String} (h : y ∈ fuseSearch entries term) : y.1 ∈ entries := by
  rw [fuseSearch, mem_sortScored] at h
  obtain ⟨e, he, rfl⟩ := List.mem_map.mp (List.mem_of_mem_filter h)
  exact he

theorem CacheConsistent.wf {st : DBState} (h : CacheConsistent st) :
    CacheWF st := by
  intro m entries hm e he
  rw [h m entries hm] at he
  simpa using List.of_mem_filter he

theorem find?_filter_of_ne (l : List (ModuleType × List ReferenceEntry))
    {m m' : ModuleType} (h : m' ≠ m) :
    (l.filter fun x => x.1 ≠ m).find? (fun x => x.1 == m')
      = l.find? (fun x => x.1 == m') := by
  induction l with
  | nil => rfl
  | cons y l ih =>
      by_cases hy : y.1 = m
      · rw [List.filter_cons_of_neg (by simp [hy]),
          List.find?_cons_of_neg
            (p := fun x : ModuleType × List ReferenceEntry => x.1 == m') _ (by
            simp only [beq_iff_eq, hy]
            exact fun hh => h hh.symm), ih]
      · by_cases hy' : y.1 = m'
        · rw [List.filter_cons_of_pos (by simp [hy]),
            List.find?_cons_of_pos _ (by simpa using hy'),
            List.find?_cons_of_pos _ (by simpa using hy')]
        · rw [List.filter_cons_of_pos (by simp [hy]),
            List.find?_cons_of_neg _ (by simpa using hy'),
            List.find?_cons_of_neg _ (by simpa using hy'), ih]

theorem cacheLookup_cacheSet (st : DBState) (m m' : ModuleType)
    (entries : List ReferenceEntry) :
    cacheLookup (cacheSet st m entries) m'
      = if m' = m then some entries else cacheLookup st m' := by
  by_cases h : m' = m
  · subst h
    simp only [cacheLookup, cacheSet, if_pos rfl]
    rw [List.find?_cons_of_pos _ (by simp)]
    rfl
  · have h2 : ((m, entries).1 == m') = false := by
      simp only [beq_eq_false_iff_ne, ne_eq]
      exact fun hh => h hh.symm
    simp only [cacheLookup, cacheSet, if_neg h]
    rw [List.find?_cons_of_neg _ (by simp [h2]), find?_filter_of_ne st.cache h]

theorem cacheLookup_invalidate_self (st : DBState) (m : ModuleType) :
    cacheLookup (invalidateCache st (some m)) m = none := by
  simp only [cacheLookup, invalidateCache]
  rw [List.find?_eq_none.mpr]
  · rfl
  · intro x hx
    have := List.of_mem_filter hx
    simp at this ⊢
    exact fun hh => (this hh).elim

theorem cacheLookup_invalidate_none (st : DBState) (m m' : ModuleType)
    (h : cacheLookup st m' = none) :
    cacheLookup (invalidateCache st (some m)) m' = none := by
  simp only [cacheLookup, invalidateCache] at h ⊢
  rcases hf : (st.cache.filter fun x => x.1 ≠ m).find? (fun x => x.1 == m')
    with _ | y
  · rw [hf]
    rfl
  · have hy := List.find?_some hf
    have hmem := List.mem_of_mem_filter (List.mem_of_find?_eq_some hf)
    rcases hfo : st.cache.find? (fun x => x.1 == m') with _ | z
    · exact absurd hy (by simpa using List.find?_eq_none.mp hfo y hmem)
    · simp [hfo] at h

theorem store_invalidate (st : DBState) (m : Option ModuleType) :
    (invalidateCache st m).store = st.store := by
  cases m <;> rfl

/-- Lemma: `addReferenceEntries` leaves no cache entry for any module named by
the written entries. -/
theorem cacheLookup_foldl_invalidate_none (ms : List ModuleType)
    (st : DBState) (m : ModuleType) (h : cacheLookup st m = none) :
    cacheLookup
      (ms.foldl (fun acc x => invalidateCache acc (some x)) st) m = none := by
  induction ms generalizing st with
  | nil => exact h
  | cons x ms ih => exact ih _ (cacheLookup_invalidate_none _ x m h)

theorem cacheLookup_foldl_invalidate (ms : List ModuleType) (st : DBState)
    (m : ModuleType) (h : m ∈ ms) :
    cacheLookup
      (ms.foldl (fun acc x => invalidateCache acc (some x)) st) m = none := by
  induction ms generalizing st with
  | nil => cases h
  | cons x ms ih =>
      rcases List.mem_cons.mp h with rfl | h'
      · exact cacheLookup_foldl_invalidate_none ms _ m
          (cacheLookup_invalidate_self st m)
      · exact ih _ h'

theorem store_foldl_invalidate (ms : List ModuleType) (st : DBState) :
    (ms.foldl (fun acc x => invalidateCache acc (some x)) st).store
      = st.store := by
  induction ms generalizing st with
  | nil => rfl
  | cons x ms ih => rw [List.foldl_cons, ih, store_invalidate]

theorem store_cacheSet (st : DBState) (m : ModuleType)
    (entries : List ReferenceEntry) :
    (cacheSet st m entries).store = st.store := rfl

theorem getEntriesByModule_cacheSet (st : DBState) (m m' : ModuleType)
    (entries : List ReferenceEntry) :
    getEntriesByModule (cacheSet st m entries) m'
      = getEntriesByModule st m' := rfl

theorem dbAfter_of_hit {st : DBState} {m : ModuleType}
    {es : List ReferenceEntry} (hc : cacheLookup st m = some es) :
    dbAfter st m = st := by
  unfold dbAfter
  rw [hc]

theorem dbAfter_of_empty {st : DBState} {m : ModuleType}
    (hc : cacheLookup st m = none)
    (hE : (getEntriesByModule st m).isEmpty) :
    dbAfter st m = st := by
  unfold dbAfter
  rw [hc]
  exact if_pos hE

theorem dbAfter_of_build {st : DBState} {m : ModuleType}
    (hc : cacheLookup st m = none)
    (hE : ¬(getEntriesByModule st m).isEmpty) :
    dbAfter st m = cacheSet st m (getEntriesByModule st m) := by
  unfold dbAfter
  rw [hc]
  exact if_neg hE

theorem store_dbAfter (st : DBState) (m : ModuleType) :
    (dbAfter st m).store = st.store := by
  unfold dbAfter
  rcases cacheLookup st m with _ | es
  · dsimp only
    split <;> rfl
  · rfl

theorem getEntriesByModule_dbAfter (st : DBState) (m m' : ModuleType) :
    getEntriesByModule (dbAfter st m) m' = getEntriesByModule st m' := by
  unfold getEntriesByModule
  rw [store_dbAfter]

theorem cacheConsistent_dbAfter {st : DBState} (m : ModuleType)
    (hcc : CacheConsistent st) : CacheConsistent (dbAfter st m) := by
  unfold dbAfter
  rcases hc : cacheLookup st m with _ | es
  · dsimp only
    split
    · exact hcc
    · intro m' entries h
      rw [cacheLookup_cacheSet] at h
      by_cases hm : m' = m
      · subst hm
        rw [if_pos rfl] at h
        cases h
        exact (getEntriesByModule_cacheSet st m' m' _).symm
      · rw [if_neg hm] at h
        rw [getEntriesByModule_cacheSet]
        exact hcc m' entries h
  · exact hcc

theorem dbAfter_idem (st : DBState) (m : ModuleType) :
    dbAfter (dbAfter st m) m = dbAfter st m := by
  rcases hc : cacheLookup st m with _ | es
  · by_cases hE : (getEntriesByModule st m).isEmpty
    · rw [dbAfter_of_empty hc hE, dbAfter_of_empty hc hE]
    · rw [dbAfter_of_build hc hE,
        @dbAfter_of_hit _ _ (getEntriesByModule st m)
          (by rw [cacheLookup_cacheSet, if_pos rfl])]
  · rw [dbAfter_of_hit hc, dbAfter_of_hit hc]

/-- Under a consistent cache, `findReferenceMatch` computes the pure
match decision over the module's store contents, and its only state
effect is memoizing that module's index. -/
theorem findReferenceMatch_pure (st : DBState) (term : String)
    (m : ModuleType) (hcc : CacheConsistent st) :
    findReferenceMatch st term m
      = (refMatchPure (getEntriesByModule st m) term, dbAfter st m) := by
  rcases hc : cacheLookup st m with _ | es
  · by_cases hE : (getEntriesByModule st m).isEmpty
    · rw [dbAfter_of_empty hc hE]
      unfold findReferenceMatch findReferenceMatchE getFuseInstanceE
        refMatchPure
      simp [hc, hE]
    · rw [dbAfter_of_build hc hE]
      unfold findReferenceMatch findReferenceMatchE getFuseInstanceE
        refMatchPure
      simp only [hc, hE, Bool.false_eq_true, if_false]
      split
      · simp_all
      · rcases hfs : fuseSearch (getEntriesByModule st m) term
            with _ | ⟨⟨a, q⟩, tl⟩
        · simp [hfs]
        · simp only [hfs]
          split <;> simp
  · have hes : es = getEntriesByModule st m := hcc m es hc
    rw [dbAfter_of_hit hc]
    unfold findReferenceMatch findReferenceMatchE getFuseInstanceE
      refMatchPure
    rw [hc, hes]
    by_cases hE : (getEntriesByModule st m).isEmpty
    · rw [List.isEmpty_iff] at hE
      simp [hE, fuseSearch, sortScored]
    · simp only [hE, Bool.false_eq_true, if_false]
      split
      · simp_all
      · rcases hfs : fuseSearch (getEntriesByModule st m) term
            with _ | ⟨⟨a, q⟩, tl⟩
        · simp [hfs]
        · simp only [hfs]
          split <;> simp

/-- Under a consistent cache, `findSimilarReferences` computes the pure
top-3 retrieval over the module's store contents. -/
theorem findSimilarReferences_pure (st : DBState) (term : String)
    (m : ModuleType) (hcc : CacheConsistent st) :
    findSimilarReferences st term m
      = (simPure (getEntriesByModule st m) term, dbAfter st m) := by
  rcases hc : cacheLookup st m with _ | es
  · by_cases hE : (getEntriesByModule st m).isEmpty
    · rw [dbAfter_of_empty hc hE]
      unfold findSimilarReferences findSimilarReferencesE getFuseInstanceE
        simPure
      simp [hc, hE]
    · rw [dbAfter_of_build hc hE]
      unfold findSimilarReferences findSimilarReferencesE getFuseInstanceE
        simPure
      simp only [hc, hE, Bool.false_eq_true, if_false]
      split <;> simp_all
  · have hes : es = getEntriesByModule st m := hcc m es hc
    rw [dbAfter_of_hit hc]
    unfold findSimilarReferences findSimilarReferencesE getFuseInstanceE
      simPure
    rw [hc, hes]
    by_cases hE : (getEntriesByModule st m).isEmpty
    · rw [List.isEmpty_iff] at hE
      simp [hE, fuseSearch, sortScored]
    · simp only [hE, Bool.false_eq_true, if_false]
      split <;> simp_all

theorem containsStr_middle (a n b : String) : containsStr (a ++ n ++ b) n :=
  ⟨a.data, b.data, by simp⟩

theorem containsStr_append_left {h n : String} (x : String)
    (hc : containsStr h n) : containsStr (x ++ h) n := by
  obtain ⟨l, r, hl⟩ := hc
  exact ⟨x.data ++ l, r, by simp [hl]⟩

theorem containsStr_append_right {h n : String} (x : String)
    (hc : containsStr h n) : containsStr (h ++ x) n := by
  obtain ⟨l, r, hl⟩ := hc
  exact ⟨l, r ++ x.data, by simp [hl]⟩

theorem containsStr_refl (s : String) : containsStr s s :=
  ⟨[], [], by simp⟩

/-- Growing a fold over string append preserves containment. -/
theorem containsStr_foldl {n : String} (f : ReferenceEntry → String)
    (l : List ReferenceEntry) (init : String) (hc : containsStr init n) :
    containsStr (l.foldl (fun acc ex => acc ++ f ex) init) n := by
  induction l generalizing init with
  | nil => exact hc
  | cons e l ih => exact ih _ (containsStr_append_right _ hc)

/-- Every example's line occurs in the fold that builds the few-shot
block. -/
theorem containsStr_foldl_mem {ex : ReferenceEntry}
    (f : ReferenceEntry → String) (l : List ReferenceEntry) (init : String)
    (hmem : ex ∈ l) :
    containsStr (l.foldl (fun acc ex => acc ++ f ex) init) (f ex) := by
  induction l generalizing init with
  | nil => cases hmem
  | cons e l ih =>
      rcases List.mem_cons.mp hmem with rfl | h'
      · exact containsStr_foldl f l _
          (containsStr_append_left init (containsStr_refl _))
      · exact ih _ h'

theorem containsStr_trans {a b c : String} (h1 : containsStr a b)
    (h2 : containsStr b c) : containsStr a c := by
  obtain ⟨l1, r1, e1⟩ := h1
  obtain ⟨l2, r2, e2⟩ := h2
  exact ⟨l1 ++ l2, r2 ++ r1, by simp [e1, e2]⟩

/-- Each retrieved example's term, code and label all occur in the
few-shot block. -/
theorem contextInfo_contains {ex : ReferenceEntry}
    {examples : List ReferenceEntry} (hmem : ex ∈ examples) :
    containsStr (contextInfo examples) ex.term ∧
    containsStr (contextInfo examples) ex.code ∧
    containsStr (contextInfo examples) ex.label := by
  have hne : examples.isEmpty = false := by
    cases examples
    · cases hmem
    · rfl
  have hline := containsStr_foldl_mem exampleLine examples
    "\n\nUse these similar past decisions from the dictionary as reference logic:\n"
    hmem
  have hfold := containsStr_append_right
    "\nApply similar logic to the new item below.\n" hline
  rw [contextInfo, hne]
  simp only [Bool.false_eq_true, if_false]
  refine ⟨containsStr_trans hfold ?_, containsStr_trans hfold ?_,
    containsStr_trans hfold ?_⟩
  · exact ⟨"- Input: \"".data,
      ("\" was coded as Code: " ++ ex.code ++ " (\"" ++ ex.label
        ++ "\")\n").data, by simp [exampleLine]⟩
  · exact ⟨("- Input: \"" ++ ex.term ++ "\" was coded as Code: ").data,
      (" (\"" ++ ex.label ++ "\")\n").data, by simp [exampleLine]⟩
  · exact ⟨("- Input: \"" ++ ex.term ++ "\" was coded as Code: " ++ ex.code
        ++ " (\"").data, ("\")\n" : String).data, by simp [exampleLine]⟩

/-- The primary text occurs in every module's user prompt, and so do
each retrieved example's term, code and label. -/
theorem userPrompt_contains (req : ClassifierRequest) :
    containsStr (userPrompt req) req.primary ∧
    ∀ ex ∈ req.examples,
      containsStr (userPrompt req) ex.term ∧
      containsStr (userPrompt req) ex.code ∧
      containsStr (userPrompt req) ex.label := by
  obtain ⟨p, sec, mo, ter, exs⟩ := req
  constructor
  · cases mo <;> dsimp only [userPrompt]
    · iterate 2 apply containsStr_append_right _
      exact containsStr_middle _ _ _
    · iterate 2 apply containsStr_append_right _
      exact containsStr_middle _ _ _
    · iterate 2 apply containsStr_append_right _
      exact containsStr_middle _ _ _
    · iterate 9 apply containsStr_append_right _
      exact containsStr_middle _ _ _
  · intro ex hmem
    obtain ⟨h1, h2, h3⟩ := contextInfo_contains hmem
    refine ⟨?_, ?_, ?_⟩ <;> cases mo <;> dsimp only [userPrompt]
    · iterate 5 apply containsStr_append_right _
      exact h1
    · iterate 5 apply containsStr_append_right _
      exact h1
    · iterate 5 apply containsStr_append_right _
      exact h1
    · iterate 12 apply containsStr_append_right _
      exact h1
    · iterate 5 apply containsStr_append_right _
      exact h2
    · iterate 5 apply containsStr_append_right _
      exact h2
    · iterate 5 apply containsStr_append_right _
      exact h2
    · iterate 12 apply containsStr_append_right _
      exact h2
    · iterate 5 apply containsStr_append_right _
      exact h3
    · iterate 5 apply containsStr_append_right _
      exact h3
    · iterate 5 apply containsStr_append_right _
      exact h3
    · iterate 12 apply containsStr_append_right _
      exact h3

/-- Under a consistent cache, one wave task computes the pure outcome
over the module's store contents, leaves the store unchanged, and its
only state effect is memoizing the module's index. -/
theorem resolveRow_pure (classify : ClassifierRequest → Except String CodedResult)
    (m : ModuleType) (db : DBState) (r : Row) (hcc : CacheConsistent db) :
    resolveRow classify m db r =
      { pend := markPending r
        fin := resolveP classify m (getEntriesByModule db m) r
        db := dbAfter db m
        requests := requestP m (getEntriesByModule db m) r } := by
  unfold resolveRow resolveP requestP
  rw [findReferenceMatch_pure db r.primary m hcc]
  rcases h : refMatchPure (getEntriesByModule db m) r.primary with _ | e
  · dsimp only
    rw [findSimilarReferences_pure (dbAfter db m) r.primary m
      (cacheConsistent_dbAfter m hcc), getEntriesByModule_dbAfter,
      dbAfter_idem]
    rcases classify (mkReq m r (simPure (getEntriesByModule db m) r.primary))
      with msg | res <;> rfl
  · rfl

theorem resolveSteps_cons
    (classify : ClassifierRequest → Except String CodedResult)
    (m : ModuleType) (E : List ReferenceEntry) (d : List Row) (i : Nat)
    (rest : List Nat) :
    resolveSteps classify m E d (i :: rest)
      = match d[i]? with
        | none => resolveSteps classify m E d rest
        | some r =>
            resolveSteps classify m E (d.set i (resolveP classify m E r))
              rest := rfl

theorem resolveSteps_append
    (classify : ClassifierRequest → Except String CodedResult)
    (m : ModuleType) (E : List ReferenceEntry) (d : List Row)
    (l1 l2 : List Nat) :
    resolveSteps classify m E d (l1 ++ l2)
      = resolveSteps classify m E (resolveSteps classify m E d l1) l2 := by
  induction l1 generalizing d with
  | nil => rfl
  | cons i rest ih =>
      rcases hd : d[i]? with _ | r <;>
        simp only [List.cons_append, resolveSteps_cons, hd]
      · exact ih d
      · exact ih _

theorem length_resolveSteps
    (classify : ClassifierRequest → Except String CodedResult)
    (m : ModuleType) (E : List ReferenceEntry) (d : List Row)
    (idxs : List Nat) :
    (resolveSteps classify m E d idxs).length = d.length := by
  induction idxs generalizing d with
  | nil => rfl
  | cons i rest ih =>
      rcases hd : d[i]? with _ | r <;> simp only [resolveSteps_cons, hd]
      · exact ih d
      · rw [ih _, List.length_set]

theorem resolveSteps_getElem?_not_mem
    (classify : ClassifierRequest → Except String CodedResult)
    (m : ModuleType) (E : List ReferenceEntry) (d : List Row)
    (idxs : List Nat) (j : Nat) (h : j ∉ idxs) :
    (resolveSteps classify m E d idxs)[j]? = d[j]? := by
  induction idxs generalizing d with
  | nil => rfl
  | cons i rest ih =>
      have hji : j ≠ i := fun hh => h (hh ▸ List.mem_cons_self i rest)
      have hjr : j ∉ rest := fun hh => h (List.mem_cons_of_mem i hh)
      rcases hd : d[i]? with _ | r <;> simp only [resolveSteps_cons, hd]
      · exact ih d hjr
      · rw [ih _ hjr, List.getElem?_set_ne (Ne.symm hji)]

theorem resolveSteps_getElem?_mem
    (classify : ClassifierRequest → Except String CodedResult)
    (m : ModuleType) (E : List ReferenceEntry) (d : List Row)
    (idxs : List Nat) (j : Nat) (hnd : idxs.Nodup)
    (hval : ∀ i ∈ idxs, i < d.length) (hj : j ∈ idxs) :
    (resolveSteps classify m E d idxs)[j]?
      = d[j]?.map (resolveP classify m E) := by
  induction idxs generalizing d with
  | nil => cases hj
  | cons i rest ih =>
      have hnr : rest.Nodup := hnd.of_cons
      have hir : i ∉ rest := (List.nodup_cons.mp hnd).1
      have hi : i < d.length := hval i (List.mem_cons_self i rest)
      have hd : d[i]? = some d[i] := List.getElem?_eq_getElem hi
      simp only [resolveSteps_cons, hd]
      rcases List.mem_cons.mp hj with rfl | hjr
      · rw [resolveSteps_getElem?_not_mem _ _ _ _ _ _ hir,
          List.getElem?_set_self hi, hd]
        rfl
      · have hji : j ≠ i := fun hh => hir (hh ▸ hjr)
        rw [ih _ hnr
          (fun i' hi' => by
            rw [List.length_set]; exact hval i' (List.mem_cons_of_mem i hi'))
          hjr, List.getElem?_set_ne (Ne.symm hji)]

theorem processWave_cons
    (classify : ClassifierRequest → Except String CodedResult)
    (m : ModuleType) (s : RunState) (idx : Nat) (rest : List Nat) :
    processWave classify m s (idx :: rest)
      = match s.data[idx]? with
        | none => processWave classify m s rest
        | some row =>
            processWave classify m
              { s with
                data := s.data.set idx (resolveRow classify m s.db row).fin
                db := (resolveRow classify m s.db row).db
                requests := s.requests
                  ++ (resolveRow classify m s.db row).requests
                resolvedLog := s.resolvedLog ++ [idx] } rest := rfl

/-- One wave over a consistent cache: the data becomes the pure
resolution of the wave's indices, the published state and status are
untouched, the store is untouched, cache consistency is preserved, and
(for in-range indices) the wave's indices are appended to the log. -/
theorem processWave_spec
    (classify : ClassifierRequest → Except String CodedResult)
    (m : ModuleType) (batch : List Nat) (s : RunState)
    (hcc : CacheConsistent s.db) :
    (processWave classify m s batch).data
        = resolveSteps classify m (getEntriesByModule s.db m) s.data batch ∧
    (processWave classify m s batch).published = s.published ∧
    (processWave classify m s batch).status = s.status ∧
    CacheConsistent (processWave classify m s batch).db ∧
    (processWave classify m s batch).db.store = s.db.store ∧
    ((∀ i ∈ batch, i < s.data.length) →
      (processWave classify m s batch).resolvedLog
        = s.resolvedLog ++ batch) := by
  induction batch generalizing s with
  | nil => exact ⟨rfl, rfl, rfl, hcc, rfl, fun _ => by simp [processWave]⟩
  | cons idx rest ih =>
      rcases hd : s.data[idx]? with _ | row <;>
        simp only [processWave_cons, resolveSteps_cons, hd]
      · obtain ⟨h1, h2, h3, h4, h5, h6⟩ := ih s hcc
        refine ⟨h1, h2, h3, h4, h5, fun hval => ?_⟩
        exact absurd (List.getElem?_eq_getElem
          (hval idx (List.mem_cons_self idx rest))) (by rw [hd]; simp)
      · rw [resolveRow_pure classify m s.db row hcc]
        set s1 : RunState :=
          { s with
            data := s.data.set idx (resolveP classify m
              (getEntriesByModule s.db m) row)
            db := dbAfter s.db m
            requests := s.requests
              ++ requestP m (getEntriesByModule s.db m) row
            resolvedLog := s.resolvedLog ++ [idx] } with hs1
        obtain ⟨h1, h2, h3, h4, h5, h6⟩ := ih s1
          (cacheConsistent_dbAfter m hcc)
        have hE : getEntriesByModule s1.db m = getEntriesByModule s.db m :=
          getEntriesByModule_dbAfter s.db m m
        refine ⟨?_, h2, h3, h4, ?_, fun hval => ?_⟩
        · rw [h1, hE]
        · rw [h5, hs1]
          exact store_dbAfter s.db m
        · rw [h6 (fun i' hi' => by
            show i' < (s.data.set idx _).length
            rw [List.length_set]
            exact hval i' (List.mem_cons_of_mem idx hi'))]
          simp [hs1]

theorem getEntriesByModule_congr {st st' : DBState} (m : ModuleType)
    (h : st.store = st'.store) :
    getEntriesByModule st m = getEntriesByModule st' m := by
  unfold getEntriesByModule
  rw [h]

theorem chunks3_flatten : ∀ l : List Nat, (chunks3 l).flatten = l
  | [] => rfl
  | [a] => rfl
  | [a, b] => rfl
  | a :: b :: c :: rest => by
      simp only [chunks3, List.flatten_cons, chunks3_flatten rest]
      rfl

theorem chunks3_length_le : ∀ l : List Nat, ∀ c ∈ chunks3 l, c.length ≤ 3
  | [], c, hc => by cases hc
  | [a], c, hc => by
      rcases List.mem_cons.mp hc with rfl | h
      · simp
      · exact absurd h (List.not_mem_nil c)
  | [a, b], c, hc => by
      rcases List.mem_cons.mp hc with rfl | h
      · simp
      · exact absurd h (List.not_mem_nil c)
  | a :: b :: d :: rest, c, hc => by
      rcases List.mem_cons.mp hc with rfl | h
      · simp
      · exact chunks3_length_le rest c h

theorem chunks3_eq (l : List Nat) (h : l ≠ []) :
    chunks3 l = l.take 3 :: chunks3 (l.drop 3) :=
  match l with
  | [] => absurd rfl h
  | [_] => rfl
  | [_, _] => rfl
  | _ :: _ :: _ :: _ => rfl

theorem runWaves_cons
    (classify : ClassifierRequest → Except String CodedResult)
    (m : ModuleType) (total : Nat) (pauseAt : Option Nat) (w : Nat)
    (batch : List Nat) (rest : List (List Nat)) (s : RunState) :
    runWaves classify m total pauseAt w (batch :: rest) s
      = if stopsAt pauseAt w then { s with status := .Paused }
        else
          runWaves classify m total pauseAt (w + 1) rest
            (if 3 * w % 6 = 0 ∨ 3 * w + 3 ≥ total then
              { processWave classify m s batch with
                published := (processWave classify m s batch).data }
            else processWave classify m s batch) := rfl

/-- The wave loop with the stop flag never observed: every selected
index is resolved in order over the initial store contents, the run
exits `Review`, the final published state equals the final data, and
the store survives untouched. -/
theorem runWaves_noPause
    (classify : ClassifierRequest → Except String CodedResult)
    (m : ModuleType) (total : Nat) :
    ∀ (cs : List (List Nat)) (w : Nat) (s : RunState),
      CacheConsistent s.db →
      (∀ i ∈ cs.flatten, i < s.data.length) →
      (∀ c ∈ cs, c.length ≤ 3) →
      total ≤ 3 * w + cs.flatten.length →
      (runWaves classify m total none w cs s).data
          = resolveSteps classify m (getEntriesByModule s.db m) s.data
              cs.flatten ∧
      (runWaves classify m total none w cs s).status = .Review ∧
      (runWaves classify m total none w cs s).resolvedLog
          = s.resolvedLog ++ cs.flatten ∧
      CacheConsistent (runWaves classify m total none w cs s).db ∧
      (runWaves classify m total none w cs s).db.store = s.db.store ∧
      (runWaves classify m total none w cs s).data.length
          = s.data.length ∧
      (cs ≠ [] → (runWaves classify m total none w cs s).published
          = (runWaves classify m total none w cs s).data) ∧
      (cs = [] → (runWaves classify m total none w cs s).published
          = s.published)
  | [], w, s, hcc, hval, hlen, htot => by
      refine ⟨rfl, rfl, ?_, hcc, rfl, rfl, fun h => absurd rfl h,
        fun _ => rfl⟩
      show s.resolvedLog = _
      simp
  | c :: cs', w, s, hcc, hval, hlen, htot => by
      rw [runWaves_cons]
      have hstop : stopsAt none w = false := rfl
      simp only [hstop, Bool.false_eq_true, if_false]
      obtain ⟨w1, w2, w3, w4, w5, w6⟩ := processWave_spec classify m c s hcc
      set s1 := processWave classify m s c with hs1
      set s2 := if 3 * w % 6 = 0 ∨ 3 * w + 3 ≥ total then
          { s1 with published := s1.data } else s1 with hs2
      have h2data : s2.data = s1.data := by rw [hs2]; split <;> rfl
      have h2db : s2.db = s1.db := by rw [hs2]; split <;> rfl
      have h2log : s2.resolvedLog = s1.resolvedLog := by
        rw [hs2]; split <;> rfl
      have h2len : s2.data.length = s.data.length := by
        rw [h2data, w1, length_resolveSteps]
      have hcc2 : CacheConsistent s2.db := by rw [h2db]; exact w4
      have hE2 : getEntriesByModule s2.db m = getEntriesByModule s.db m := by
        rw [h2db]; exact getEntriesByModule_congr m w5
      have hvalc : ∀ i ∈ c, i < s.data.length := fun i hi =>
        hval i (by rw [List.flatten_cons]; exact List.mem_append_left _ hi)
      have hval2 : ∀ i ∈ cs'.flatten, i < s2.data.length := fun i hi => by
        rw [h2len]
        exact hval i (by rw [List.flatten_cons]; exact List.mem_append_right _ hi)
      have hlen2 : ∀ c' ∈ cs', c'.length ≤ 3 := fun c' hc' =>
        hlen c' (List.mem_cons_of_mem c hc')
      have hjlen : (c :: cs').flatten.length = c.length + cs'.flatten.length := by
        rw [List.flatten_cons, List.length_append]
      have hc3 : c.length ≤ 3 := hlen c (List.mem_cons_self c cs')
      have htot2 : total ≤ 3 * (w + 1) + cs'.flatten.length := by omega
      obtain ⟨i1, i2, i3, i4, i5, i6, i7, i8⟩ :=
        runWaves_noPause classify m total cs' (w + 1) s2 hcc2 hval2 hlen2
          htot2
      refine ⟨?_, i2, ?_, i4, ?_, ?_, ?_, fun h => absurd h (by simp)⟩
      · rw [i1, hE2, h2data, w1, List.flatten_cons, resolveSteps_append]
      · rw [i3, h2log, w6 hvalc, List.flatten_cons, List.append_assoc]
      · rw [i5, h2db, w5]
      · rw [i6, h2len]
      · intro _
        rcases hcs' : cs' with _ | ⟨c', cs''⟩
        · subst hcs'
          rw [i8 rfl, i1]
          have hflat : (List.flatten ([] : List (List Nat))).length = 0 := rfl
          have hflush : (3 * w % 6 = 0 ∨ 3 * w + 3 ≥ total) := by
            right
            omega
          have hs2' : s2 = { s1 with published := s1.data } := by
            rw [hs2, if_pos hflush]
          rw [hs2']
          rfl
        · rw [hcs'] at i7
          exact i7 (by simp)

/-- The wave loop with the stop flag observed at boundary `w + k`:
exactly the first `k` waves run (each to completion), the run exits
`Paused`, and the store survives untouched.  (The published state at
the pause depends on the flush pattern and is characterized separately
at the concrete pause points.) -/
theorem runWaves_pause
    (classify : ClassifierRequest → Except String CodedResult)
    (m : ModuleType) (total : Nat) :
    ∀ (k : Nat) (cs : List (List Nat)) (w : Nat) (s : RunState),
      CacheConsistent s.db →
      (∀ i ∈ cs.flatten, i < s.data.length) →
      k < cs.length →
      (runWaves classify m total (some (w + k)) w cs s).data
          = resolveSteps classify m (getEntriesByModule s.db m) s.data
              (cs.take k).flatten ∧
      (runWaves classify m total (some (w + k)) w cs s).status = .Paused ∧
      (runWaves classify m total (some (w + k)) w cs s).resolvedLog
          = s.resolvedLog ++ (cs.take k).flatten ∧
      CacheConsistent (runWaves classify m total (some (w + k)) w cs s).db ∧
      (runWaves classify m total (some (w + k)) w cs s).db.store
          = s.db.store ∧
      (runWaves classify m total (some (w + k)) w cs s).data.length
          = s.data.length
  | k, [], w, s, hcc, hval, hk => absurd hk (by simp)
  | 0, c :: cs', w, s, hcc, hval, hk => by
      have hstop : stopsAt (some (w + 0)) w = true := by
        simp [stopsAt]
      have hout : runWaves classify m total (some (w + 0)) w (c :: cs') s
          = { s with status := .Paused } := by
        rw [runWaves_cons, hstop]
        rfl
      rw [hout]
      refine ⟨rfl, rfl, ?_, hcc, rfl, rfl⟩
      show s.resolvedLog = _
      simp
  | k + 1, c :: cs', w, s, hcc, hval, hk => by
      rw [runWaves_cons]
      have hstop : stopsAt (some (w + (k + 1))) w = false := by
        simp only [stopsAt, decide_eq_false_iff_not]
        omega
      simp only [hstop, Bool.false_eq_true, if_false]
      obtain ⟨w1, w2, w3, w4, w5, w6⟩ := processWave_spec classify m c s hcc
      set s1 := processWave classify m s c with hs1
      set s2 := if 3 * w % 6 = 0 ∨ 3 * w + 3 ≥ total then
          { s1 with published := s1.data } else s1 with hs2
      have h2data : s2.data = s1.data := by rw [hs2]; split <;> rfl
      have h2db : s2.db = s1.db := by rw [hs2]; split <;> rfl
      have h2log : s2.resolvedLog = s1.resolvedLog := by
        rw [hs2]; split <;> rfl
      have h2len : s2.data.length = s.data.length := by
        rw [h2data, w1, length_resolveSteps]
      have hcc2 : CacheConsistent s2.db := by rw [h2db]; exact w4
      have hE2 : getEntriesByModule s2.db m = getEntriesByModule s.db m := by
        rw [h2db]; exact getEntriesByModule_congr m w5
      have hvalc : ∀ i ∈ c, i < s.data.length := fun i hi =>
        hval i (by rw [List.flatten_cons]; exact List.mem_append_left _ hi)
      have hval2 : ∀ i ∈ cs'.flatten, i < s2.data.length := fun i hi => by
        rw [h2len]
        exact hval i
          (by rw [List.flatten_cons]; exact List.mem_append_right _ hi)
      have hk2 : k < cs'.length := by
        have := hk
        simp only [List.length_cons] at this
        omega
      have harith : w + (k + 1) = (w + 1) + k := by omega
      rw [harith]
      obtain ⟨i1, i2, i3, i4, i5, i6⟩ :=
        runWaves_pause classify m total k cs' (w + 1) s2 hcc2 hval2 hk2
      have htake : ((c :: cs').take (k + 1)).flatten
          = c ++ (cs'.take k).flatten := by
        rw [List.take_succ_cons, List.flatten_cons]
      refine ⟨?_, i2, ?_, i4, ?_, ?_⟩
      · rw [i1, hE2, h2data, w1, htake, resolveSteps_append]
      · rw [i3, h2log, w6 hvalc, htake, List.append_assoc]
      · rw [i5, h2db, w5]
      · rw [i6, h2len]

/-! ## Claim theorems -/

theorem cacheConsistent_empty : CacheConsistent {} := by
  intro m entries h
  simp [cacheLookup] at h

theorem simSlice_spec (entries : List ReferenceEntry) (term : String)
    (m : ModuleType) (hmod : ∀ e ∈ entries, e.module = m) :
    (((fuseSearch entries term).take 3).map (fun x => x.1)).length ≤ 3 ∧
    ∀ e ∈ ((fuseSearch entries term).take 3).map (fun x => x.1),
      e.module = m := by
  constructor
  · rw [List.length_map]
    exact List.length_take_le 3 _
  · intro e he
    obtain ⟨p, hp, rfl⟩ := List.mem_map.mp he
    exact hmod _ (mem_fuseSearch (List.mem_of_mem_take hp))

/-- C8: `findSimilarReferences` returns at most 3 entries and only
entries of the queried module (for any well-formed cache state). -/
theorem c8_matchSimilar_bounded_and_module_pure (st : DBState)
    (term : String) (m : ModuleType) (hwf : CacheWF st) :
    (findSimilarReferences st term m).1.length ≤ 3 ∧
    ∀ e ∈ (findSimilarReferences st term m).1, e.module = m := by
  unfold findSimilarReferences findSimilarReferencesE getFuseInstanceE
  rcases hc : cacheLookup st m with _ | es
  · dsimp only
    by_cases hE : (getEntriesByModule st m).isEmpty
    · simp [hE]
    · simp only [hE, Bool.false_eq_true, if_false]
      split
      · simp
      · exact simSlice_spec _ _ m fun e he => by
          simpa using List.of_mem_filter he
  · dsimp only
    split
    · simp
    · exact simSlice_spec _ _ m (hwf m es hc)

/-- C8 witness. -/
theorem c8_matchSimilar_witness :
    CacheWF {} ∧
    ((findSimilarReferences {} "software engineer" .ISCO08).1.length ≤ 3 ∧
      ∀ e ∈ (findSimilarReferences {} "software engineer" .ISCO08).1,
        e.module = .ISCO08) := by
  have hwf : CacheWF {} := by
    intro m entries h
    simp [cacheLookup] at h
  exact ⟨hwf,
    c8_matchSimilar_bounded_and_module_pure {} "software engineer" .ISCO08 hwf⟩

/-- C9: a storage/build exception (`readExc`) or a search exception
(`searchExc`) inside `findReferenceMatch`/`findSimilarReferences` is
caught: the queries return `none`/`[]` together with the log line that
carries the module and the 50-character truncation of the term; by
type, no exception reaches the caller. -/
theorem c9_db_failures_absorbed (readExc searchExc : Option String)
    (st : DBState) (term : String) (m : ModuleType) (e : String) :
    (readExc = some e → cacheLookup st m = none →
      findReferenceMatchE readExc searchExc st term m
          = (none, st, [logMsgMatch m term]) ∧
      findSimilarReferencesE readExc searchExc st term m
          = ([], st, [logMsgSimilar m term])) ∧
    (searchExc = some e → jsTrim term ≠ "" →
      ∀ entries st',
        getFuseInstanceE readExc st m = .ok (some entries, st') →
        findReferenceMatchE readExc searchExc st term m
            = (none, st', [logMsgMatch m term]) ∧
        findSimilarReferencesE readExc searchExc st term m
            = ([], st', [logMsgSimilar m term])) ∧
    containsStr (logMsgMatch m term) (term.take 50) ∧
    containsStr (logMsgMatch m term) m.str ∧
    containsStr (logMsgSimilar m term) (term.take 50) ∧
    containsStr (logMsgSimilar m term) m.str := by
  refine ⟨?_, ?_, ?_, ?_, ?_, ?_⟩
  · intro hre hc
    unfold findReferenceMatchE findSimilarReferencesE getFuseInstanceE
    rw [hc, hre]
    exact ⟨rfl, rfl⟩
  · intro hse hterm entries st' hg
    unfold findReferenceMatchE findSimilarReferencesE
    rw [hg, hse]
    constructor <;> · dsimp only; rw [if_neg hterm]
  · exact containsStr_middle _ (term.take 50) "...\""
  · unfold logMsgMatch
    iterate 2 apply containsStr_append_right _
    exact containsStr_middle _ m.str _
  · exact containsStr_middle _ (term.take 50) "...\""
  · unfold logMsgSimilar
    iterate 2 apply containsStr_append_right _
    exact containsStr_middle _ m.str _

/-- C9 witness: a read failure on an uncached module is absorbed. -/
theorem c9_db_failures_witness :
    findReferenceMatchE (some "boom") none {} "abc" .ISCO08
        = (none, {}, [logMsgMatch .ISCO08 "abc"]) ∧
    findSimilarReferencesE (some "boom") none {} "abc" .ISCO08
        = ([], {}, [logMsgSimilar .ISCO08 "abc"]) := by
  exact (c9_db_failures_absorbed (some "boom") none {} "abc" .ISCO08
    "boom").1 rfl (by simp [cacheLookup])

/-- C10: saving through the manual-edit dialog forces confidence
`'Manual'`, marks the row coded and manually edited with the error
cleared, and leaves every other field of that row and all other rows
unchanged. -/
theorem c10_manual_save_forces_manual (data : List Row) (i : Nat)
    (form : CodedResult) (h : i < data.length) :
    (modalSave form).confidence = "Manual" ∧
    (handleManualSave data (some i) (modalSave form))[i]?
        = some { data[i] with
            codingStatus := .coded
            result := some { form with confidence := "Manual" }
            errorMessage := none
            manuallyEdited := true } ∧
    (∀ j, j ≠ i →
      (handleManualSave data (some i) (modalSave form))[j]? = data[j]?) ∧
    (handleManualSave data none (modalSave form)) = data := by
  refine ⟨rfl, ?_, ?_, rfl⟩
  · unfold handleManualSave
    rw [List.getElem?_set_self (by simpa using h)]
    have hd : data.getD i default = data[i] := by
      rw [List.getD_eq_getElem?_getD, List.getElem?_eq_getElem h]
      rfl
    rw [hd]
    rfl
  · intro j hj
    unfold handleManualSave
    rw [List.getElem?_set_ne (Ne.symm hj)]

/-- C10 witness. -/
theorem c10_manual_save_witness :
    (0 : Nat) < ([c10row] : List Row).length ∧
    (handleManualSave [c10row] (some 0) (modalSave c10form))[0]?
        = some { c10row with
            codingStatus := .coded
            result := some { c10form with confidence := "Manual" }
            errorMessage := none
            manuallyEdited := true } :=
  ⟨by decide,
    by
      have h := (c10_manual_save_forces_manual [c10row] 0 c10form
        (by decide)).2.1
      simpa using h⟩

theorem findReferenceMatch_pure_of_miss (st : DBState) (term : String)
    (m : ModuleType) (hc : cacheLookup st m = none) :
    findReferenceMatch st term m
      = (refMatchPure (getEntriesByModule st m) term, dbAfter st m) := by
  by_cases hE : (getEntriesByModule st m).isEmpty
  · rw [dbAfter_of_empty hc hE]
    unfold findReferenceMatch findReferenceMatchE getFuseInstanceE
      refMatchPure
    simp [hc, hE]
  · rw [dbAfter_of_build hc hE]
    unfold findReferenceMatch findReferenceMatchE getFuseInstanceE
      refMatchPure
    simp only [hc, hE, Bool.false_eq_true, if_false]
    split
    · simp_all
    · rcases hfs : fuseSearch (getEntriesByModule st m) term
          with _ | ⟨⟨a, q⟩, tl⟩
      · simp [hfs]
      · simp only [hfs]
        split <;> simp

theorem findSimilarReferences_pure_of_miss (st : DBState) (term : String)
    (m : ModuleType) (hc : cacheLookup st m = none) :
    findSimilarReferences st term m
      = (simPure (getEntriesByModule st m) term, dbAfter st m) := by
  by_cases hE : (getEntriesByModule st m).isEmpty
  · rw [dbAfter_of_empty hc hE]
    unfold findSimilarReferences findSimilarReferencesE getFuseInstanceE
      simPure
    simp [hc, hE]
  · rw [dbAfter_of_build hc hE]
    unfold findSimilarReferences findSimilarReferencesE getFuseInstanceE
      simPure
    simp only [hc, hE, Bool.false_eq_true, if_false]
    split <;> simp_all

/-- C4: a `put` (`addReferenceEntries`) drops the cached fuzzy index of
every module named by the written entries and the next queries for such
a module answer from the post-write store; a `clear(m)` drops module
`m`'s index and leaves its queries with no data; a full `clear()` drops
the whole cache. -/
theorem c4_no_stale_cache_after_write (st : DBState)
    (entries : List ReferenceEntry) (m : ModuleType) (term : String)
    (hm : m ∈ entries.map (fun e => e.module)) :
    cacheLookup (addReferenceEntries st entries) m = none ∧
    (findReferenceMatch (addReferenceEntries st entries) term m).1
        = refMatchPure
            (getEntriesByModule (addReferenceEntries st entries) m) term ∧
    (findSimilarReferences (addReferenceEntries st entries) term m).1
        = simPure
            (getEntriesByModule (addReferenceEntries st entries) m) term ∧
    cacheLookup (clearReferenceData st (some m)) m = none ∧
    getEntriesByModule (clearReferenceData st (some m)) m = [] ∧
    (findReferenceMatch (clearReferenceData st (some m)) term m).1 = none ∧
    (findSimilarReferences (clearReferenceData st (some m)) term m).1
        = [] ∧
    (∀ m' : ModuleType,
      cacheLookup (clearReferenceData st none) m' = none) ∧
    (findReferenceMatch (clearReferenceData st none) term m).1
        = refMatchPure
            (getEntriesByModule (clearReferenceData st none) m) term := by
  have hadd : cacheLookup (addReferenceEntries st entries) m = none := by
    unfold addReferenceEntries
    exact cacheLookup_foldl_invalidate _ _ m hm
  have hclr : cacheLookup (clearReferenceData st (some m)) m = none := by
    unfold clearReferenceData
    exact cacheLookup_invalidate_self _ m
  have hclrE : getEntriesByModule (clearReferenceData st (some m)) m = [] := by
    unfold clearReferenceData invalidateCache getEntriesByModule
    dsimp only
    rw [List.filter_filter, List.filter_eq_nil_iff]
    intro e _
    simp
  have hclrAll : ∀ m' : ModuleType,
      cacheLookup (clearReferenceData st none) m' = none := by
    intro m'
    simp [clearReferenceData, invalidateCache, cacheLookup]
  refine ⟨hadd, ?_, ?_, hclr, hclrE, ?_, ?_, hclrAll, ?_⟩
  · rw [findReferenceMatch_pure_of_miss _ term m hadd]
  · rw [findSimilarReferences_pure_of_miss _ term m hadd]
  · rw [findReferenceMatch_pure_of_miss _ term m hclr, hclrE]
    rfl
  · rw [findSimilarReferences_pure_of_miss _ term m hclr, hclrE]
    rfl
  · rw [findReferenceMatch_pure_of_miss _ term m (hclrAll m)]

/-- C4 witness: the warm cache is dropped by the put and the next query
answers from the post-write store. -/
theorem c4_no_stale_cache_witness :
    ModuleType.ISCO08 ∈ [c4entry2].map (fun e => e.module) ∧
    cacheLookup (addReferenceEntries c4state [c4entry2]) .ISCO08 = none ∧
    (findSimilarReferences (addReferenceEntries c4state [c4entry2])
        "truck driver" .ISCO08).1
      = simPure
          (getEntriesByModule (addReferenceEntries c4state [c4entry2])
            .ISCO08) "truck driver" := by
  have h := c4_no_stale_cache_after_write c4state [c4entry2] .ISCO08
    "truck driver" (by decide)
  exact ⟨by decide, h.1, h.2.2.1⟩

theorem refMatchPure_blank (entries : List ReferenceEntry) (term : String)
    (h : jsTrim term = "") : refMatchPure entries term = none := by
  unfold refMatchPure
  split <;> simp_all

theorem simPure_blank (entries : List ReferenceEntry) (term : String)
    (h : jsTrim term = "") : simPure entries term = [] := by
  unfold simPure
  split <;> simp_all

/-- C1: the code rejects a perfect dictionary hit.  The row's primary
text matches the stored term exactly (after normalization), the search
scores it 0, yet `findReferenceMatch` returns `null` — because
`results[0].score && results[0].score < 0.1` is a JavaScript truthiness
test and a 0 score is falsy — so the row is resolved by the external
classifier instead of with confidence `'Reference'`.  This contradicts
the function's own comment ("0.0 is exact"). -/
theorem c1_exact_match_rejected_calls_classifier :
    normalize c1row.primary = normalize seEntry.term ∧
    seEntry ∈ c1db.store ∧
    fuseSearch (getEntriesByModule c1db .ISCO08) c1row.primary
        = [(seEntry, ⟨0, 1⟩)] ∧
    (findReferenceMatch c1db c1row.primary .ISCO08).1 = none ∧
    (resolveRow aiOracle .ISCO08 c1db c1row).requests
        = [mkReq .ISCO08 c1row [seEntry]] ∧
    (resolveRow aiOracle .ISCO08 c1db c1row).fin.result
        = some { code := "9999", label := "AI label", confidence := "High" }
    := by
  decide

/-- C2 counterexample: a whitespace-only primary text is not rejected
with a validation error; the classifier is invoked and the row ends
`coded` with the classifier's answer. -/
theorem c2_blank_reaches_classifier_counterexample :
    jsTrim blankRow.primary = "" ∧
    (resolveRow aiOracle .ISCO08 {} blankRow).requests
        = [mkReq .ISCO08 blankRow []] ∧
    (resolveRow aiOracle .ISCO08 {} blankRow).fin.codingStatus = .coded ∧
    (resolveRow aiOracle .ISCO08 {} blankRow).fin.errorMessage = none := by
  decide

/-- C2 (amended): a row with blank primary text is not short-circuited;
the dictionary layers return no match and no examples for it, and the
row is handed to the external classifier, whose answer alone decides
the outcome. -/
theorem c2_blank_row_goes_to_classifier
    (classify : ClassifierRequest → Except String CodedResult)
    (st : DBState) (m : ModuleType) (row : Row)
    (hcc : CacheConsistent st) (hblank : jsTrim row.primary = "") :
    (findReferenceMatch st row.primary m).1 = none ∧
    (findSimilarReferences st row.primary m).1 = [] ∧
    (resolveRow classify m st row).requests = [mkReq m row []] ∧
    (∀ res, classify (mkReq m row []) = .ok res →
      (resolveRow classify m st row).fin
        = { row with
            codingStatus := .coded
            result := some res
            errorMessage := none }) ∧
    (∀ msg, classify (mkReq m row []) = .error msg →
      (resolveRow classify m st row).fin
        = { row with codingStatus := .error, errorMessage := some msg }) := by
  have hE := refMatchPure_blank (getEntriesByModule st m) row.primary hblank
  have hS := simPure_blank (getEntriesByModule st m) row.primary hblank
  have hrr := resolveRow_pure classify m st row hcc
  refine ⟨?_, ?_, ?_, ?_, ?_⟩
  · rw [findReferenceMatch_pure st row.primary m hcc, hE]
  · rw [findSimilarReferences_pure st row.primary m hcc, hS]
  · rw [hrr]
    show requestP m (getEntriesByModule st m) row = _
    unfold requestP
    rw [hE, hS]
  · intro res hres
    rw [hrr]
    show resolveP classify m (getEntriesByModule st m) row = _
    unfold resolveP
    rw [hE, hS, hres]
  · intro msg hmsg
    rw [hrr]
    show resolveP classify m (getEntriesByModule st m) row = _
    unfold resolveP
    rw [hE, hS, hmsg]

/-- C2 (amended) witness. -/
theorem c2_blank_row_witness :
    jsTrim blankRow.primary = "" ∧
    (findSimilarReferences ({} : DBState) blankRow.primary .ISCO08).1
        = [] ∧
    (resolveRow aiOracle .ISCO08 {} blankRow).requests
        = [mkReq .ISCO08 blankRow []] := by
  have h := c2_blank_row_goes_to_classifier aiOracle {} .ISCO08 blankRow
    cacheConsistent_empty (by decide)
  exact ⟨by decide, h.2.1, h.2.2.1⟩

/-- C3: when the dictionary has no exact hit, the classifier request
carries the row's primary/secondary/tertiary text, the target module
and exactly the entries retrieved by `findSimilarReferences`; the user
prompt built from the request embeds the primary text and every
retrieved example's term, code and label. -/
theorem c3_classifier_request_incorporates_examples
    (classify : ClassifierRequest → Except String CodedResult)
    (st : DBState) (m : ModuleType) (row : Row)
    (hcc : CacheConsistent st)
    (hmiss : refMatchPure (getEntriesByModule st m) row.primary = none) :
    (resolveRow classify m st row).requests
        = [mkReq m row ((findSimilarReferences st row.primary m).1)] ∧
    (mkReq m row ((findSimilarReferences st row.primary m).1)).primary
        = row.primary ∧
    (mkReq m row ((findSimilarReferences st row.primary m).1)).secondary
        = row.secondary ∧
    (mkReq m row ((findSimilarReferences st row.primary m).1)).module
        = m ∧
    (mkReq m row ((findSimilarReferences st row.primary m).1)).tertiary
        = row.tertiary ∧
    containsStr
      (userPrompt (mkReq m row ((findSimilarReferences st row.primary m).1)))
      row.primary ∧
    ∀ ex ∈ (findSimilarReferences st row.primary m).1,
      containsStr (userPrompt
          (mkReq m row ((findSimilarReferences st row.primary m).1)))
        ex.term ∧
      containsStr (userPrompt
          (mkReq m row ((findSimilarReferences st row.primary m).1)))
        ex.code ∧
      containsStr (userPrompt
          (mkReq m row ((findSimilarReferences st row.primary m).1)))
        ex.label := by
  have hsim : (findSimilarReferences st row.primary m).1
      = simPure (getEntriesByModule st m) row.primary := by
    rw [findSimilarReferences_pure st row.primary m hcc]
  obtain ⟨hp, hex⟩ :=
    userPrompt_contains (mkReq m row ((findSimilarReferences st row.primary m).1))
  refine ⟨?_, rfl, rfl, rfl, rfl, hp, hex⟩
  rw [resolveRow_pure classify m st row hcc]
  show requestP m (getEntriesByModule st m) row = _
  unfold requestP
  rw [hmiss, hsim]

/-- C3 witness: the near-miss entry is retrieved as an example, carried
in the request and embedded in the prompt. -/
theorem c3_classifier_request_witness :
    refMatchPure (getEntriesByModule c3db .ISCO08) c3row.primary = none ∧
    (resolveRow aiOracle .ISCO08 c3db c3row).requests
        = [mkReq .ISCO08 c3row [c3entry]] ∧
    containsStr (userPrompt (mkReq .ISCO08 c3row [c3entry]))
      c3entry.term := by
  have hcc : CacheConsistent c3db := by
    intro m entries h
    simp [cacheLookup, c3db] at h
  have h := c3_classifier_request_incorporates_examples aiOracle c3db
    .ISCO08 c3row hcc (by decide)
  have hsim : (findSimilarReferences c3db c3row.primary .ISCO08).1
      = [c3entry] := by decide
  rw [hsim] at h
  exact ⟨by decide, h.1, (h.2.2.2.2.2.2 c3entry (by simp)).1⟩

theorem resolveP_coded_of_resolves
    {classify : ClassifierRequest → Except String CodedResult}
    {m : ModuleType} {E : List ReferenceEntry} {r : Row}
    (h : rowResolves classify m E r) :
    (resolveP classify m E r).codingStatus = .coded := by
  unfold resolveP
  rcases hm : refMatchPure E r.primary with _ | e
  · rcases hc : classify (mkReq m r (simPure E r.primary)) with msg | res
    · exfalso
      rcases h with h | h
      · rw [hm] at h
        simp at h
      · rw [hc] at h
        simp [classifierOk] at h
    · rfl
  · rfl

theorem resolveP_error_of_fails
    {classify : ClassifierRequest → Except String CodedResult}
    {m : ModuleType} {E : List ReferenceEntry} {r : Row} {msg : String}
    (hmiss : refMatchPure E r.primary = none)
    (hfail : classify (mkReq m r (simPure E r.primary)) = .error msg) :
    resolveP classify m E r
      = { r with codingStatus := .error, errorMessage := some msg } := by
  unfold resolveP
  rw [hmiss, hfail]

theorem chunks3_ne_nil {l : List Nat} (h : l ≠ []) : chunks3 l ≠ [] := by
  intro hc
  apply h
  have := chunks3_flatten l
  rw [hc] at this
  simpa using this.symm

/-- C5: if the classifier call fails for exactly one row of the run,
that row ends `error` carrying the thrown message, every other row ends
`coded`, and the run itself completes into `Review`. -/
theorem c5_single_failure_isolated
    (classify : ClassifierRequest → Except String CodedResult)
    (m : ModuleType) (rows : List Row) (st : DBState)
    (status0 : CodingStatus) (k : Nat) (msg : String)
    (hcc : CacheConsistent st) (hk : k < rows.length)
    (hmiss : refMatchPure (getEntriesByModule st m) rows[k].primary = none)
    (hfail : classify (mkReq m rows[k]
        (simPure (getEntriesByModule st m) rows[k].primary)) = .error msg)
    (hok : ∀ j (hj : j < rows.length), j ≠ k →
      rowResolves classify m (getEntriesByModule st m) rows[j]) :
    (processRows classify m none (List.range rows.length) rows st
        status0).status = .Review ∧
    (processRows classify m none (List.range rows.length) rows st
        status0).published
      = (processRows classify m none (List.range rows.length) rows st
        status0).data ∧
    (processRows classify m none (List.range rows.length) rows st
        status0).published[k]?
      = some { rows[k] with
          codingStatus := .error
          errorMessage := some msg } ∧
    (∀ j (hj : j < rows.length), j ≠ k →
      ((processRows classify m none (List.range rows.length) rows st
          status0).published[j]?).map Row.codingStatus
        = some .coded) := by
  have hne : List.range rows.length ≠ [] := by
    intro h
    rw [List.range_eq_nil] at h
    omega
  have hnE : ¬((List.range rows.length).isEmpty = true) := by
    rw [List.isEmpty_iff]
    exact hne
  unfold processRows
  rw [if_neg hnE]
  have hval : ∀ i ∈ (chunks3 (List.range rows.length)).flatten,
      i < rows.length := by
    intro i hi
    rw [chunks3_flatten] at hi
    exact List.mem_range.mp hi
  have htot : (List.range rows.length).length
      ≤ 3 * 0 + (chunks3 (List.range rows.length)).flatten.length := by
    rw [chunks3_flatten]
    simp
  obtain ⟨o1, o2, o3, o4, o5, o6, o7, o8⟩ := runWaves_noPause classify m
    (List.range rows.length).length (chunks3 (List.range rows.length)) 0
    { data := rows, published := rows, db := st, requests := [], resolvedLog := [], status := .Processing }
    hcc hval (chunks3_length_le _) htot
  have hpub := o7 (chunks3_ne_nil hne)
  dsimp only at o1
  rw [chunks3_flatten] at o1
  refine ⟨o2, hpub, ?_, ?_⟩
  · rw [hpub, o1, resolveSteps_getElem?_mem classify m _ rows
      (List.range rows.length) k (List.nodup_range _)
      (fun i hi => List.mem_range.mp hi) (List.mem_range.mpr hk),
      List.getElem?_eq_getElem hk, Option.map_some',
      resolveP_error_of_fails hmiss hfail]
  · intro j hj hjk
    rw [hpub, o1, resolveSteps_getElem?_mem classify m _ rows
      (List.range rows.length) j (List.nodup_range _)
      (fun i hi => List.mem_range.mp hi) (List.mem_range.mpr hj),
      List.getElem?_eq_getElem hj, Option.map_some', Option.map_some',
      resolveP_coded_of_resolves (hok j hj hjk)]

/-- C5 witness: in a 4-row run whose classifier fails only on row 1,
the run reaches `Review`, row 1 ends `error` with the thrown message,
and its wave-mate row 0 ends `coded`. -/
theorem c5_single_failure_witness :
    (processRows c5oracle .ISCO08 none (List.range c5rows.length) c5rows
        {} .Review).status = .Review ∧
    (processRows c5oracle .ISCO08 none (List.range c5rows.length) c5rows
        {} .Review).published[1]?
      = some { c5rows[1] with
          codingStatus := .error
          errorMessage := some "AI down" } ∧
    ((processRows c5oracle .ISCO08 none (List.range c5rows.length) c5rows
        {} .Review).published[0]?).map Row.codingStatus
      = some .coded := by
  have h := c5_single_failure_isolated c5oracle .ISCO08 c5rows {} .Review
    1 "AI down" cacheConsistent_empty (by decide) rfl rfl (by decide)
  exact ⟨h.1, h.2.2.1, h.2.2.2 0 (by decide) (by decide)⟩

theorem resolveRow_pend
    (classify : ClassifierRequest → Except String CodedResult)
    (m : ModuleType) (db : DBState) (r : Row) :
    (resolveRow classify m db r).pend = markPending r := by
  unfold resolveRow
  rcases findReferenceMatch db r.primary m with ⟨_ | e, db2⟩
  · dsimp only
    rcases classify (mkReq m r (findSimilarReferences db2 r.primary m).1)
      with msg | res <;> rfl
  · rfl

/-- C7: `handleRetryErrors` selects exactly the rows whose status is
`error`, feeds them through the same `processRows` pipeline, in which
each selected row is first reset to pending with its error cleared
before the resolution attempt; unselected rows are left unchanged and
selected rows are re-resolved. -/
theorem c7_retry_errors_selection_and_reset
    (classify : ClassifierRequest → Except String CodedResult)
    (m : ModuleType) (data : List Row) (st : DBState)
    (status0 : CodingStatus) (hcc : CacheConsistent st)
    (hstat : status0 ≠ .Processing) :
    (∀ i, i ∈ errorIndices data ↔
      i < data.length ∧ (data.getD i default).codingStatus = .error) ∧
    handleRetryErrors classify m none data st status0
        = processRows classify m none (errorIndices data) data st
            status0 ∧
    (∀ (db : DBState) (r : Row),
      (resolveRow classify m db r).pend = markPending r) ∧
    (∀ r : Row, (markPending r).codingStatus = .pending ∧
      (markPending r).errorMessage = none ∧
      (markPending r).result = r.result) ∧
    (∀ j, j < data.length → j ∉ errorIndices data →
      (handleRetryErrors classify m none data st status0).published[j]?
        = data[j]?) ∧
    (∀ j, j ∈ errorIndices data →
      (handleRetryErrors classify m none data st status0).published[j]?
        = data[j]?.map
            (resolveP classify m (getEntriesByModule st m))) := by
  have hmem : ∀ i, i ∈ errorIndices data ↔
      i < data.length ∧ (data.getD i default).codingStatus = .error := by
    intro i
    unfold errorIndices
    rw [List.mem_filter, List.mem_range]
    simp
  have hdef : handleRetryErrors classify m none data st status0
      = processRows classify m none (errorIndices data) data st status0 := by
    unfold handleRetryErrors
    rw [if_neg hstat]
  have hnd : (errorIndices data).Nodup :=
    (List.nodup_range data.length).filter _
  have hval : ∀ i ∈ errorIndices data, i < data.length := fun i hi =>
    ((hmem i).mp hi).1
  by_cases hE : errorIndices data = []
  · refine ⟨hmem, hdef, resolveRow_pend classify m, fun r => ⟨rfl, rfl, rfl⟩,
      ?_, ?_⟩
    · intro j hj hjn
      rw [hdef, hE]
      rfl
    · intro j hj
      rw [hE] at hj
      cases hj
  · have hne : errorIndices data ≠ [] := hE
    have hnE : ¬((errorIndices data).isEmpty = true) := by
      rw [List.isEmpty_iff]
      exact hne
    have hrw : processRows classify m none (errorIndices data) data st
        status0
      = runWaves classify m (errorIndices data).length none 0
          (chunks3 (errorIndices data))
          { data := data, published := data, db := st, requests := [], resolvedLog := [], status := .Processing } := by
      unfold processRows
      rw [if_neg hnE]
    have hvalf : ∀ i ∈ (chunks3 (errorIndices data)).flatten,
        i < data.length := by
      intro i hi
      rw [chunks3_flatten] at hi
      exact hval i hi
    have htot : (errorIndices data).length
        ≤ 3 * 0 + (chunks3 (errorIndices data)).flatten.length := by
      rw [chunks3_flatten]
      simp
    obtain ⟨o1, o2, o3, o4, o5, o6, o7, o8⟩ := runWaves_noPause classify m
      (errorIndices data).length (chunks3 (errorIndices data)) 0
      { data := data, published := data, db := st, requests := [], resolvedLog := [], status := .Processing }
      hcc hvalf (chunks3_length_le _) htot
    have hpub := o7 (chunks3_ne_nil hne)
    dsimp only at o1
    rw [chunks3_flatten] at o1
    refine ⟨hmem, hdef, resolveRow_pend classify m, fun r => ⟨rfl, rfl, rfl⟩,
      ?_, ?_⟩
    · intro j hj hjn
      rw [hdef, hrw, hpub, o1,
        resolveSteps_getElem?_not_mem classify m _ data (errorIndices data)
          j hjn]
    · intro j hj
      rw [hdef, hrw, hpub, o1,
        resolveSteps_getElem?_mem classify m _ data (errorIndices data) j
          hnd hval hj]

/-- C7 witness: retry selects exactly the errored row 0, re-resolves
it, resets it to pending first, and leaves the coded row 1 unchanged. -/
theorem c7_retry_errors_witness :
    errorIndices c7rows = [0] ∧
    (markPending c7rows[0]).codingStatus = .pending ∧
    (markPending c7rows[0]).errorMessage = none ∧
    (handleRetryErrors aiOracle .ISCO08 none c7rows {} .Review).published[1]?
        = c7rows[1]? ∧
    (handleRetryErrors aiOracle .ISCO08 none c7rows {} .Review).published[0]?
        = c7rows[0]?.map
            (resolveP aiOracle .ISCO08 (getEntriesByModule {} .ISCO08)) := by
  have h := c7_retry_errors_selection_and_reset aiOracle .ISCO08 c7rows {}
    .Review cacheConsistent_empty (by decide)
  refine ⟨by decide, by decide, by decide, ?_, ?_⟩
  · exact h.2.2.2.2.1 1 (by decide) (by decide)
  · exact h.2.2.2.2.2 0 (by decide)

/-- C6 counterexample: pausing at the boundary before wave 2 of a
10-row run discards wave 1's results — the published state is only
flushed every second wave — so rows 3–5 were resolved (they are in the
log) yet remain `pending` in the published state, and resuming resolves
them a second time: row 3 is resolved twice over the whole run. -/
theorem c6_pause_reresolves_rows_counterexample :
    c6run1.status = .Paused ∧
    c6run1.resolvedLog = [0, 1, 2, 3, 4, 5] ∧
    (c6run1.published[3]?).map Row.codingStatus = some .pending ∧
    c6run2.status = .Review ∧
    (c6run1.resolvedLog ++ c6run2.resolvedLog).count 3 = 2 := by
  decide

/-- C6 (amended): pause takes effect only at a wave boundary — pausing
after wave 1 (a published boundary: the state is flushed every second
wave, starting with wave 0) leaves exactly rows 0–2 resolved and
published as coded, the run `Paused`; resuming processes exactly the
still-pending rows 3…n−1, never re-resolving the published coded rows,
completes into `Review` with every row coded, and over the two runs
every row was resolved exactly once.  (Pausing at a non-flush boundary
instead discards the last wave's results and re-resolves those rows —
see the counterexample.) -/
theorem c6_pause_after_first_wave_resumes_exactly_once
    (classify : ClassifierRequest → Except String CodedResult)
    (m : ModuleType) (rows : List Row) (st : DBState)
    (status0 : CodingStatus) (hcc : CacheConsistent st)
    (hn : 3 < rows.length)
    (hpend : ∀ r ∈ rows, r.codingStatus = .pending)
    (hok : ∀ r ∈ rows, rowResolves classify m (getEntriesByModule st m) r) :
    (pauseAfterFirstWave classify m rows st status0).status = .Paused ∧
    (pauseAfterFirstWave classify m rows st status0).resolvedLog
        = (List.range rows.length).take 3 ∧
    (∀ j, j < 3 →
      (pauseAfterFirstWave classify m rows st status0).published[j]?
        = rows[j]?.map (resolveP classify m (getEntriesByModule st m))) ∧
    (∀ j, 3 ≤ j → j < rows.length →
      (pauseAfterFirstWave classify m rows st status0).published[j]?
        = rows[j]?) ∧
    (resumeAfterPause classify m
        (pauseAfterFirstWave classify m rows st status0)).resolvedLog
      = (List.range rows.length).drop 3 ∧
    (∀ j, j < 3 → j ∉ (resumeAfterPause classify m
        (pauseAfterFirstWave classify m rows st status0)).resolvedLog) ∧
    (resumeAfterPause classify m
        (pauseAfterFirstWave classify m rows st status0)).status
      = .Review ∧
    (∀ j, j < rows.length →
      ((resumeAfterPause classify m
          (pauseAfterFirstWave classify m rows st status0)).published[j]?).map
        Row.codingStatus = some .coded) ∧
    (pauseAfterFirstWave classify m rows st status0).resolvedLog
        ++ (resumeAfterPause classify m
            (pauseAfterFirstWave classify m rows st status0)).resolvedLog
      = List.range rows.length ∧
    (∀ j, j < rows.length →
      ((pauseAfterFirstWave classify m rows st status0).resolvedLog
          ++ (resumeAfterPause classify m
              (pauseAfterFirstWave classify m rows st status0)).resolvedLog).count
        j = 1) := by
  have hne : List.range rows.length ≠ [] := by
    intro h
    rw [List.range_eq_nil] at h
    omega
  have hnE : ¬((List.range rows.length).isEmpty = true) := by
    rw [List.isEmpty_iff]
    exact hne
  have htake3 : (List.range rows.length).take 3 = List.range 3 := by
    rw [List.take_range]
    congr 1
    omega
  have hdrop_ne : (List.range rows.length).drop 3 ≠ [] := by
    intro h
    have h2 : ((List.range rows.length).drop 3).length = 0 := by
      rw [h]
      rfl
    rw [List.length_drop, List.length_range] at h2
    omega
  obtain ⟨w1, w2, w3, w4, w5, w6⟩ := processWave_spec classify m
    ((List.range rows.length).take 3)
    { data := rows, published := rows, db := st, requests := [], resolvedLog := [], status := .Processing }
    hcc
  dsimp only at w1 w2 w3 w4 w5 w6
  set s1 := processWave classify m
    { data := rows, published := rows, db := st, requests := [], resolvedLog := [], status := .Processing }
    ((List.range rows.length).take 3) with hs1
  have hvalt : ∀ i ∈ (List.range rows.length).take 3, i < rows.length := by
    intro i hi
    rw [htake3] at hi
    have := List.mem_range.mp hi
    omega
  have hlog1 : s1.resolvedLog = (List.range rows.length).take 3 := by
    rw [w6 hvalt]
    simp
  have hrun1 : pauseAfterFirstWave classify m rows st status0
      = { s1 with published := s1.data, status := .Paused } := by
    unfold pauseAfterFirstWave processRows
    rw [if_neg hnE, chunks3_eq _ hne, runWaves_cons,
      if_neg (show ¬(stopsAt (some 1) 0 = true) by decide),
      if_pos (show 3 * 0 % 6 = 0 ∨
        3 * 0 + 3 ≥ (List.range rows.length).length from Or.inl rfl),
      chunks3_eq _ hdrop_ne, runWaves_cons,
      if_pos (show stopsAt (some 1) (0 + 1) = true by decide)]
  have hst1 : (pauseAfterFirstWave classify m rows st status0).status
      = .Paused := by
    rw [hrun1]
  have hl1 : (pauseAfterFirstWave classify m rows st status0).resolvedLog
      = (List.range rows.length).take 3 := by
    rw [hrun1]
    exact hlog1
  have hplen : s1.data.length = rows.length := by
    rw [w1, length_resolveSteps]
  have hc : ∀ j, j < 3 →
      (pauseAfterFirstWave classify m rows st status0).published[j]?
        = rows[j]?.map (resolveP classify m (getEntriesByModule st m)) := by
    intro j hj
    rw [hrun1]
    show s1.data[j]? = _
    rw [w1, resolveSteps_getElem?_mem classify m _ rows _ j
      (htake3 ▸ List.nodup_range 3) hvalt
      (by rw [htake3]; exact List.mem_range.mpr hj)]
  have hd : ∀ j, 3 ≤ j → j < rows.length →
      (pauseAfterFirstWave classify m rows st status0).published[j]?
        = rows[j]? := by
    intro j hj3 hjn
    rw [hrun1]
    show s1.data[j]? = _
    rw [w1, resolveSteps_getElem?_not_mem classify m _ rows _ j
      (by rw [htake3]; intro hmem; have := List.mem_range.mp hmem; omega)]
  have hppub_len : (pauseAfterFirstWave classify m rows st
      status0).published.length = rows.length := by
    rw [hrun1]
    show s1.data.length = _
    exact hplen
  have hsplit : (List.range rows.length).take 3
      ++ (List.range rows.length).drop 3 = List.range rows.length :=
    List.take_append_drop 3 _
  have hnodup_app : ((List.range rows.length).take 3
      ++ (List.range rows.length).drop 3).Nodup := by
    rw [hsplit]
    exact List.nodup_range rows.length
  have hdisj := List.disjoint_of_nodup_append hnodup_app
  have hdrop_mem : ∀ a ∈ (List.range rows.length).drop 3,
      3 ≤ a ∧ a < rows.length := by
    intro a ha
    constructor
    · by_contra hlt
      push_neg at hlt
      exact hdisj (by rw [htake3]; exact List.mem_range.mpr hlt) ha
    · have hmem : a ∈ List.range rows.length := by
        rw [← hsplit]
        exact List.mem_append_right _ ha
      exact List.mem_range.mp hmem
  have hdrop_mem2 : ∀ a, 3 ≤ a → a < rows.length →
      a ∈ (List.range rows.length).drop 3 := by
    intro a h3 hn2
    have hmem : a ∈ List.range rows.length := List.mem_range.mpr hn2
    rw [← hsplit] at hmem
    rcases List.mem_append.mp hmem with h | h
    · rw [htake3] at h
      have := List.mem_range.mp h
      omega
    · exact h
  have hstat_lt : ∀ i, i < 3 →
      ((pauseAfterFirstWave classify m rows st
          status0).published.getD i default).codingStatus = .coded := by
    intro i hi
    have hin : i < rows.length := by omega
    rw [List.getD_eq_getElem?_getD, hc i hi, List.getElem?_eq_getElem hin,
      Option.map_some', Option.getD_some]
    exact resolveP_coded_of_resolves (hok rows[i] (List.getElem_mem hin))
  have hstat_ge : ∀ i, 3 ≤ i → i < rows.length →
      ((pauseAfterFirstWave classify m rows st
          status0).published.getD i default).codingStatus = .pending := by
    intro i h3 hin
    rw [List.getD_eq_getElem?_getD, hd i h3 hin,
      List.getElem?_eq_getElem hin, Option.getD_some]
    exact hpend rows[i] (List.getElem_mem hin)
  have hpidx : pendingIndices
      (pauseAfterFirstWave classify m rows st status0).published
      = (List.range rows.length).drop 3 := by
    unfold pendingIndices
    rw [hppub_len]
    have hre : (List.range rows.length).filter
        (fun i => ((pauseAfterFirstWave classify m rows st
          status0).published.getD i default).codingStatus
            == RowStatus.pending)
      = ((List.range rows.length).take 3
          ++ (List.range rows.length).drop 3).filter
        (fun i => ((pauseAfterFirstWave classify m rows st
          status0).published.getD i default).codingStatus
            == RowStatus.pending) := by
      rw [hsplit]
    rw [hre, List.filter_append, List.filter_eq_nil_iff.mpr ?_,
      List.filter_eq_self.mpr ?_]
    · rfl
    · intro a ha
      obtain ⟨h3, hn2⟩ := hdrop_mem a ha
      rw [hstat_ge a h3 hn2]
      rfl
    · intro a ha
      rw [htake3] at ha
      have ha3 := List.mem_range.mp ha
      rw [hstat_lt a ha3]
      decide
  have hpstat_ne : ¬((pauseAfterFirstWave classify m rows st
      status0).status = .Processing) := by
    rw [hst1]
    decide
  have hr2 : resumeAfterPause classify m
      (pauseAfterFirstWave classify m rows st status0)
    = processRows classify m none ((List.range rows.length).drop 3)
        (pauseAfterFirstWave classify m rows st status0).published
        (pauseAfterFirstWave classify m rows st status0).db
        (pauseAfterFirstWave classify m rows st status0).status := by
    unfold resumeAfterPause handleAutoCode
    rw [if_neg hpstat_ne, hpidx]
  have hdnE : ¬(((List.range rows.length).drop 3).isEmpty = true) := by
    rw [List.isEmpty_iff]
    exact hdrop_ne
  have hpdb : (pauseAfterFirstWave classify m rows st status0).db
      = s1.db := by
    rw [hrun1]
  have hcc1 : CacheConsistent
      (pauseAfterFirstWave classify m rows st status0).db := by
    rw [hpdb]
    exact w4
  have hr2b : processRows classify m none
      ((List.range rows.length).drop 3)
      (pauseAfterFirstWave classify m rows st status0).published
      (pauseAfterFirstWave classify m rows st status0).db
      (pauseAfterFirstWave classify m rows st status0).status
    = runWaves classify m ((List.range rows.length).drop 3).length none 0
        (chunks3 ((List.range rows.length).drop 3))
        { data := (pauseAfterFirstWave classify m rows st status0).published, published := (pauseAfterFirstWave classify m rows st status0).published, db := (pauseAfterFirstWave classify m rows st status0).db, requests := [], resolvedLog := [], status := .Processing } := by
    unfold processRows
    rw [if_neg hdnE]
  have hval2 : ∀ i ∈ (chunks3 ((List.range rows.length).drop 3)).flatten,
      i < (pauseAfterFirstWave classify m rows st
        status0).published.length := by
    intro i hi
    rw [chunks3_flatten] at hi
    rw [hppub_len]
    exact (hdrop_mem i hi).2
  have htot2 : ((List.range rows.length).drop 3).length
      ≤ 3 * 0 + (chunks3 ((List.range rows.length).drop 3)).flatten.length
      := by
    rw [chunks3_flatten]
    simp
  obtain ⟨o1, o2, o3, o4, o5, o6, o7, o8⟩ := runWaves_noPause classify m
    ((List.range rows.length).drop 3).length
    (chunks3 ((List.range rows.length).drop 3)) 0
    { data := (pauseAfterFirstWave classify m rows st status0).published, published := (pauseAfterFirstWave classify m rows st status0).published, db := (pauseAfterFirstWave classify m rows st status0).db, requests := [], resolvedLog := [], status := .Processing }
    hcc1 hval2 (chunks3_length_le _) htot2
  dsimp only at o1 o3
  rw [chunks3_flatten] at o1
  have hEeq : getEntriesByModule
      (pauseAfterFirstWave classify m rows st status0).db m
    = getEntriesByModule st m := by
    rw [hpdb]
    exact getEntriesByModule_congr m w5
  rw [hEeq] at o1
  have hpub2 := o7 (chunks3_ne_nil hdrop_ne)
  have hlog2 : (resumeAfterPause classify m
      (pauseAfterFirstWave classify m rows st status0)).resolvedLog
    = (List.range rows.length).drop 3 := by
    rw [hr2, hr2b, o3]
    simp [chunks3_flatten]
  have hnotmem2 : ∀ j, j < 3 → j ∉ (resumeAfterPause classify m
      (pauseAfterFirstWave classify m rows st status0)).resolvedLog := by
    intro j hj3 hmem
    rw [hlog2] at hmem
    have := (hdrop_mem j hmem).1
    omega
  have hstat2 : (resumeAfterPause classify m
      (pauseAfterFirstWave classify m rows st status0)).status
      = .Review := by
    rw [hr2, hr2b]
    exact o2
  have hcoded2 : ∀ j, j < rows.length →
      ((resumeAfterPause classify m
        (pauseAfterFirstWave classify m rows st
          status0)).published[j]?).map Row.codingStatus
      = some .coded := by
    intro j hjn
    rw [hr2, hr2b, hpub2, o1]
    by_cases hj3 : j < 3
    · rw [resolveSteps_getElem?_not_mem classify m _ _ _ j
        (fun hmem => by have := (hdrop_mem j hmem).1; omega),
        hc j hj3, List.getElem?_eq_getElem hjn, Option.map_some',
        Option.map_some']
      rw [resolveP_coded_of_resolves (hok rows[j] (List.getElem_mem hjn))]
    · push_neg at hj3
      rw [resolveSteps_getElem?_mem classify m _ _ _ j
        (hnodup_app.of_append_right)
        (fun i hi => by rw [hppub_len]; exact (hdrop_mem i hi).2)
        (hdrop_mem2 j hj3 hjn),
        hd j hj3 hjn, List.getElem?_eq_getElem hjn, Option.map_some',
        Option.map_some']
      rw [resolveP_coded_of_resolves (hok rows[j] (List.getElem_mem hjn))]
  have hcat : (pauseAfterFirstWave classify m rows st
        status0).resolvedLog
      ++ (resumeAfterPause classify m
          (pauseAfterFirstWave classify m rows st status0)).resolvedLog
    = List.range rows.length := by
    rw [hl1, hlog2, hsplit]
  have hcount : ∀ j, j < rows.length →
      ((pauseAfterFirstWave classify m rows st status0).resolvedLog
        ++ (resumeAfterPause classify m
            (pauseAfterFirstWave classify m rows st
              status0)).resolvedLog).count j = 1 := by
    intro j hjn
    rw [hcat]
    exact List.count_eq_one_of_mem (List.nodup_range _)
      (List.mem_range.mpr hjn)
  exact ⟨hst1, hl1, hc, hd, hlog2, hnotmem2, hstat2, hcoded2, hcat, hcount⟩

/-- C6 (amended) witness: the 10-row pause-after-wave-1 scenario ends
`Paused`, resumes to `Review`, and each row is resolved exactly once
across the two runs. -/
theorem c6_pause_resume_witness :
    (pauseAfterFirstWave c6oracle .ISCO08 c6rows {} .Review).status
        = .Paused ∧
    (resumeAfterPause c6oracle .ISCO08
        (pauseAfterFirstWave c6oracle .ISCO08 c6rows {} .Review)).status
      = .Review ∧
    ∀ j, j < c6rows.length →
      ((pauseAfterFirstWave c6oracle .ISCO08 c6rows {} .Review).resolvedLog
          ++ (resumeAfterPause c6oracle .ISCO08
              (pauseAfterFirstWave c6oracle .ISCO08 c6rows {}
                .Review)).resolvedLog).count j = 1 := by
  have h := c6_pause_after_first_wave_resumes_exactly_once c6oracle
    .ISCO08 c6rows {} .Review cacheConsistent_empty (by decide)
    (by decide) (by decide)
  exact ⟨h.1, h.2.2.2.2.2.2.1, h.2.2.2.2.2.2.2.2.2⟩

end MCC

